import Mathlib

/-!
# Console server configuration: schema, document encoding and resolution rules

Verification development for
`pkg/console/subresource/consoleserver/types.go` and the generated apply
configurations `operator/v1/etcd.go` and `config/v1alpha1/insightsdatagather.go`.

Conventions of the embedding:

* a Go `string` is a `String`, `int` and `int64` are `Int` (no arithmetic is
  performed on them), `bool` is `Bool`;
* a slice `[]T` is a `List T` (a nil slice and a slice of length zero are both
  `[]`; the encoder only looks at the length);
* a pointer `*T` is an `Option T`;
* a `map[K]V` is the list of its entries in the order the encoder or a `range`
  loop visits them, a nil map is `none` where nil-ness matters;
* a run-time panic is an `Except.error`;
* the YAML document is a tree of nodes (`Yaml`), the text layer of the YAML
  library is not modelled;
* struct types imported from packages outside this slice
  (`authorizationv1.ResourceAttributes`, `operatorv1.PinnedResourceReference`,
  `operatorv1.Capability`, `metav1.Time`, ...) are type parameters.
-/

namespace consoleserver

/-! ## YAML nodes -/

/-- YAML node tree: scalars, sequences and mappings with string keys. -/
inductive Yaml where
  | null : Yaml
  | str (s : String) : Yaml
  | int (i : Int) : Yaml
  | bool (b : Bool) : Yaml
  | seq (items : List Yaml) : Yaml
  | map (entries : List (String × Yaml)) : Yaml
  deriving Repr, Inhabited

/-- Entries of a mapping node, in document order. -/
abbrev Fields := List (String × Yaml)

/-- Value of the last entry of a mapping that carries key `k`. -/
def lookupKey (k : String) : Fields → Option Yaml
  | [] => none
  | (k', v) :: rest =>
    match lookupKey k rest with
    | some w => some w
    | none => if k' = k then some v else none

/-- Child of a node under key `k`; only a mapping has children. -/
def Yaml.child (n : Yaml) (k : String) : Option Yaml :=
  match n with
  | Yaml.map entries => lookupKey k entries
  | _ => none

/-- Node reached from `n` by following a path of keys. -/
def Yaml.path (n : Yaml) : List String → Option Yaml
  | [] => some n
  | k :: ks =>
    match n.child k with
    | some c => c.path ks
    | none => none

/-- A document contains the key at path `p`. -/
def Yaml.hasKey (n : Yaml) (p : List String) : Bool := (n.path p).isSome

/-- Struct field whose tag has no `omitempty`: the key is always written. -/
def emit (key : String) (v : Yaml) : Fields := [(key, v)]

/-- Struct field tagged `omitempty`: the key is written unless the value is
zero (`isZero` of the YAML encoder: empty string, 0, false, nil pointer, length
zero slice or map, struct with only zero fields). -/
def emitUnless (zero : Bool) (key : String) (v : Yaml) : Fields :=
  if zero then [] else [(key, v)]

/-- String field tagged `omitempty`. -/
def omitStr (key : String) (s : String) : Fields :=
  emitUnless (decide (s = "")) key (Yaml.str s)

/-- Integer field tagged `omitempty`. -/
def omitInt (key : String) (i : Int) : Fields :=
  emitUnless (decide (i = 0)) key (Yaml.int i)

/-- Boolean field tagged `omitempty`. -/
def omitBool (key : String) (b : Bool) : Fields :=
  emitUnless (!b) key (Yaml.bool b)

/-- Pointer field tagged `omitempty`: omitted when the pointer is nil, written
otherwise (also when it points to a zero value). -/
def emitPtr {α : Type} (key : String) (enc : α → Yaml) (p : Option α) : Fields :=
  match p with
  | none => []
  | some x => [(key, enc x)]

/-- Node of a pointer that is written without `omitempty`: null for nil. -/
def ptrNode {α : Type} (enc : α → Yaml) : Option α → Yaml
  | none => Yaml.null
  | some x => enc x

/-- Sequence of strings. -/
def strSeq (xs : List String) : Yaml := Yaml.seq (xs.map Yaml.str)

/-- Slice of strings tagged `omitempty`. -/
def omitStrs (key : String) (xs : List String) : Fields :=
  emitUnless xs.isEmpty key (strSeq xs)

/-- Mapping node of a `map[string]string`. -/
def strMap (m : List (String × String)) : Yaml :=
  Yaml.map (m.map (fun kv => (kv.1, Yaml.str kv.2)))

/-- Encoder and decoder of a type declared outside this slice. -/
structure Codec (α : Type) where
  /-- Node the value is written as. -/
  enc : α → Yaml
  /-- Value read back from a node, if the node has the right shape. -/
  dec : Yaml → Option α

/-- A codec reads back what it wrote. -/
def Codec.Lawful {α : Type} (c : Codec α) : Prop := ∀ x, c.dec (c.enc x) = some x

/-! ## Data model (`types.go`) -/

/-- Go: `type ProxyService struct`. -/
structure ProxyService where
  Endpoint : String := ""
  ConsoleAPIPath : String := ""
  CACertificate : String := ""
  Authorize : Bool := false
  deriving DecidableEq, Repr, Inhabited

/-- Go: `type Proxy struct`. -/
structure Proxy where
  Services : List ProxyService := []
  deriving DecidableEq, Repr, Inhabited

/-- Go: `type ServingInfo struct`. `NamedCertificates` is `[]interface{}`: an
untyped element is represented by the node it is written as. -/
structure ServingInfo where
  BindAddress : String := ""
  CertFile : String := ""
  KeyFile : String := ""
  RedirectPort : Int := 0
  BindNetwork : String := ""
  ClientCA : String := ""
  NamedCertificates : List Yaml := []
  MinTLSVersion : String := ""
  CipherSuites : List String := []
  MaxRequestsInFlight : Int := 0
  RequestTimeoutSeconds : Int := 0
  deriving Repr, Inhabited

/-- Go: `type ClusterInfo struct`. `configv1.TopologyMode` is a string type. -/
structure ClusterInfo where
  ConsoleBaseAddress : String := ""
  ConsoleBasePath : String := ""
  MasterPublicURL : String := ""
  ControlPlaneToplogy : String := ""
  ReleaseVersion : String := ""
  NodeArchitectures : List String := []
  NodeOperatingSystems : List String := []
  CopiedCSVsDisabled : Bool := false
  deriving DecidableEq, Repr, Inhabited

/-- Go: `type MonitoringInfo struct`. -/
structure MonitoringInfo where
  AlertmanagerUserWorkloadHost : String := ""
  AlertmanagerTenancyHost : String := ""
  deriving DecidableEq, Repr, Inhabited

/-- Go: `type Auth struct`. -/
structure Auth where
  AuthType : String := ""
  OIDCIssuer : String := ""
  OIDCExtraScopes : List String := []
  OIDCOCLoginCommand : String := ""
  ClientID : String := ""
  ClientSecretFile : String := ""
  OAuthEndpointCAFile : String := ""
  LogoutRedirect : String := ""
  InactivityTimeoutSeconds : Int := 0
  deriving DecidableEq, Repr, Inhabited

/-- Go: `type Session struct`. -/
structure Session where
  CookieEncryptionKeyFile : String := ""
  CookieAuthenticationKeyFile : String := ""
  deriving DecidableEq, Repr, Inhabited

/-- Go: `type QuickStarts struct`. -/
structure QuickStarts where
  Disabled : List String := []
  deriving DecidableEq, Repr, Inhabited

/-- Go: `type ProjectAccess struct`. -/
structure ProjectAccess where
  AvailableClusterRoles : List String := []
  deriving DecidableEq, Repr, Inhabited

/-- Go: `type CatalogTypesState string`. -/
abbrev CatalogTypesState := String

/-- Go: `CatalogTypeEnabled`. -/
def CatalogTypeEnabled : CatalogTypesState := "Enabled"

/-- Go: `CatalogTypeDisabled`. -/
def CatalogTypeDisabled : CatalogTypesState := "Disabled"

/-- Go: `type DeveloperConsoleCatalogTypes struct`; `Enabled` and `Disabled`
are `*[]string`. -/
structure DeveloperConsoleCatalogTypes where
  State : CatalogTypesState := ""
  Enabled : Option (List String) := none
  Disabled : Option (List String) := none
  deriving DecidableEq, Repr, Inhabited

/-- Go: `type DeveloperConsoleCatalogCategoryMeta struct`. -/
structure DeveloperConsoleCatalogCategoryMeta where
  ID : String := ""
  Label : String := ""
  Tags : List String := []
  deriving DecidableEq, Repr, Inhabited

/-- Go: `type DeveloperConsoleCatalogCategory struct`; the embedded meta is
tagged `,inline`. -/
structure DeveloperConsoleCatalogCategory where
  DeveloperConsoleCatalogCategoryMeta : DeveloperConsoleCatalogCategoryMeta := {}
  Subcategories : List consoleserver.DeveloperConsoleCatalogCategoryMeta := []
  deriving DecidableEq, Repr, Inhabited

/-- Go: `type DeveloperConsoleCatalogCustomization struct`; `Categories` is a
pointer to a slice. -/
structure DeveloperConsoleCatalogCustomization where
  Categories : Option (List DeveloperConsoleCatalogCategory) := none
  Types : DeveloperConsoleCatalogTypes := {}
  deriving DecidableEq, Repr, Inhabited

/-- Go: `type AddPage struct`. -/
structure AddPage where
  DisabledActions : List String := []
  deriving DecidableEq, Repr, Inhabited

/-- Go: `type PerspectiveState string`. -/
abbrev PerspectiveState := String

/-- Go: `PerspectiveEnabled`. -/
def PerspectiveEnabled : PerspectiveState := "Enabled"

/-- Go: `PerspectiveDisabled`. -/
def PerspectiveDisabled : PerspectiveState := "Disabled"

/-- Go: `PerspectiveAccessReview`. -/
def PerspectiveAccessReview : PerspectiveState := "AccessReview"

/-- Go: `type ResourceAttributesAccessReview struct`; `RA` stands for
`authorizationv1.ResourceAttributes`. -/
structure ResourceAttributesAccessReview (RA : Type) where
  Required : List RA := []
  Missing : List RA := []
  deriving DecidableEq, Repr, Inhabited

/-- Go: `type PerspectiveVisibility struct`. -/
structure PerspectiveVisibility (RA : Type) where
  State : PerspectiveState := ""
  AccessReview : Option (ResourceAttributesAccessReview RA) := none
  deriving DecidableEq, Repr, Inhabited

/-- Go: `type Perspective struct`; `PR` stands for
`operatorv1.PinnedResourceReference`. -/
structure Perspective (RA PR : Type) where
  ID : String := ""
  Visibility : PerspectiveVisibility RA := {}
  PinnedResources : Option (List PR) := none
  deriving DecidableEq, Repr, Inhabited

/-- Go: `type Customization struct`; `Cap` stands for `operatorv1.Capability`. -/
structure Customization (RA PR Cap : Type) where
  Branding : String := ""
  DocumentationBaseURL : String := ""
  CustomProductName : String := ""
  CustomLogoFile : String := ""
  DeveloperCatalog : Option DeveloperConsoleCatalogCustomization := none
  ProjectAccess : ProjectAccess := {}
  QuickStarts : QuickStarts := {}
  AddPage : AddPage := {}
  Perspectives : List (Perspective RA PR) := []
  Capabilities : List Cap := []
  deriving DecidableEq, Repr, Inhabited

/-- Go: `type Providers struct`. -/
structure Providers where
  StatuspageID : String := ""
  deriving DecidableEq, Repr, Inhabited

/-- Go: `type Config struct`. The keys of `ContentSecurityPolicy` have the
string type `v1.DirectiveType`. -/
structure Config (RA PR Cap : Type) where
  APIVersion : String := ""
  Kind : String := ""
  ServingInfo : ServingInfo := {}
  ClusterInfo : ClusterInfo := {}
  Auth : Auth := {}
  Session : Session := {}
  Customization : Customization RA PR Cap := {}
  Providers : Providers := {}
  MonitoringInfo : MonitoringInfo := {}
  Plugins : List (String × String) := []
  I18nNamespaces : List String := []
  Proxy : Proxy := {}
  ContentSecurityPolicy : List (String × List String) := []
  Telemetry : List (String × String) := []
  deriving Repr, Inhabited

/-- Codecs of the three element types declared outside this slice. -/
structure ExtCodecs (RA PR Cap : Type) where
  ra : Codec RA
  pr : Codec PR
  cap : Codec Cap

/-! ## Encoding: the struct tags of `types.go`

Each function lists the fields of one struct in declaration order, with the key
and the `omitempty` option of its `yaml` tag. -/

/-- Zero test of the encoder for a `ProjectAccess` value. -/
def ProjectAccess.isZero (p : ProjectAccess) : Bool := p.AvailableClusterRoles.isEmpty

/-- Zero test of the encoder for a `QuickStarts` value. -/
def QuickStarts.isZero (q : QuickStarts) : Bool := q.Disabled.isEmpty

/-- Zero test of the encoder for an `AddPage` value. -/
def AddPage.isZero (a : AddPage) : Bool := a.DisabledActions.isEmpty

/-- Zero test of the encoder for a `MonitoringInfo` value. -/
def MonitoringInfo.isZero (m : MonitoringInfo) : Bool :=
  decide (m.AlertmanagerUserWorkloadHost = "") && decide (m.AlertmanagerTenancyHost = "")

/-- Zero test of the encoder for a `Proxy` value. -/
def Proxy.isZero (p : Proxy) : Bool := p.Services.isEmpty

/-- Encoding of `ProxyService`: no field is tagged `omitempty`. -/
def marshalProxyService (s : ProxyService) : Yaml :=
  Yaml.map (emit "endpoint" (Yaml.str s.Endpoint)
    ++ emit "consoleAPIPath" (Yaml.str s.ConsoleAPIPath)
    ++ emit "caCertificate" (Yaml.str s.CACertificate)
    ++ emit "authorize" (Yaml.bool s.Authorize))

/-- Encoding of `Proxy`. -/
def marshalProxy (p : Proxy) : Yaml :=
  Yaml.map (emitUnless p.Services.isEmpty "services" (Yaml.seq (p.Services.map marshalProxyService)))

/-- Encoding of `ServingInfo`. -/
def marshalServingInfo (s : ServingInfo) : Yaml :=
  Yaml.map (omitStr "bindAddress" s.BindAddress
    ++ omitStr "certFile" s.CertFile
    ++ omitStr "keyFile" s.KeyFile
    ++ omitInt "redirectPort" s.RedirectPort
    ++ omitStr "bindNetwork" s.BindNetwork
    ++ omitStr "clientCA" s.ClientCA
    ++ emitUnless s.NamedCertificates.isEmpty "namedCertificates" (Yaml.seq s.NamedCertificates)
    ++ omitStr "minTLSVersion" s.MinTLSVersion
    ++ omitStrs "cipherSuites" s.CipherSuites
    ++ omitInt "maxRequestsInFlight" s.MaxRequestsInFlight
    ++ omitInt "requestTimeoutSeconds" s.RequestTimeoutSeconds)

/-- Encoding of `ClusterInfo`. -/
def marshalClusterInfo (c : ClusterInfo) : Yaml :=
  Yaml.map (omitStr "consoleBaseAddress" c.ConsoleBaseAddress
    ++ omitStr "consoleBasePath" c.ConsoleBasePath
    ++ omitStr "masterPublicURL" c.MasterPublicURL
    ++ omitStr "controlPlaneTopology" c.ControlPlaneToplogy
    ++ omitStr "releaseVersion" c.ReleaseVersion
    ++ omitStrs "nodeArchitectures" c.NodeArchitectures
    ++ omitStrs "nodeOperatingSystems" c.NodeOperatingSystems
    ++ omitBool "copiedCSVsDisabled" c.CopiedCSVsDisabled)

/-- Encoding of `MonitoringInfo`. -/
def marshalMonitoringInfo (m : MonitoringInfo) : Yaml :=
  Yaml.map (omitStr "alertmanagerUserWorkloadHost" m.AlertmanagerUserWorkloadHost
    ++ omitStr "alertmanagerTenancyHost" m.AlertmanagerTenancyHost)

/-- Encoding of `Auth`. -/
def marshalAuth (a : Auth) : Yaml :=
  Yaml.map (omitStr "authType" a.AuthType
    ++ omitStr "oidcIssuer" a.OIDCIssuer
    ++ omitStrs "oidcExtraScopes" a.OIDCExtraScopes
    ++ omitStr "oidcOCLoginCommand" a.OIDCOCLoginCommand
    ++ omitStr "clientID" a.ClientID
    ++ omitStr "clientSecretFile" a.ClientSecretFile
    ++ omitStr "oauthEndpointCAFile" a.OAuthEndpointCAFile
    ++ omitStr "logoutRedirect" a.LogoutRedirect
    ++ omitInt "inactivityTimeoutSeconds" a.InactivityTimeoutSeconds)

/-- Encoding of `Session`. -/
def marshalSession (s : Session) : Yaml :=
  Yaml.map (omitStr "cookieEncryptionKeyFile" s.CookieEncryptionKeyFile
    ++ omitStr "cookieAuthenticationKeyFile" s.CookieAuthenticationKeyFile)

/-- Encoding of `QuickStarts`. Its only field carries a `json` tag and no
`yaml` tag, so the YAML key is the lower-cased field name and `omitempty` does
not apply. -/
def marshalQuickStarts (q : QuickStarts) : Yaml :=
  Yaml.map (emit "disabled" (strSeq q.Disabled))

/-- Encoding of `ProjectAccess`. -/
def marshalProjectAccess (p : ProjectAccess) : Yaml :=
  Yaml.map (omitStrs "availableClusterRoles" p.AvailableClusterRoles)

/-- Encoding of `DeveloperConsoleCatalogTypes`. -/
def marshalCatalogTypes (t : DeveloperConsoleCatalogTypes) : Yaml :=
  Yaml.map (omitStr "state" t.State
    ++ emitPtr "enabled" strSeq t.Enabled
    ++ emitPtr "disabled" strSeq t.Disabled)

/-- Fields of `DeveloperConsoleCatalogCategoryMeta`. -/
def categoryMetaFields (m : DeveloperConsoleCatalogCategoryMeta) : Fields :=
  emit "id" (Yaml.str m.ID)
    ++ emit "label" (Yaml.str m.Label)
    ++ omitStrs "tags" m.Tags

/-- Encoding of `DeveloperConsoleCatalogCategoryMeta`. -/
def marshalCategoryMeta (m : DeveloperConsoleCatalogCategoryMeta) : Yaml :=
  Yaml.map (categoryMetaFields m)

/-- Encoding of `DeveloperConsoleCatalogCategory`: the embedded meta is inlined
into the mapping of the category. -/
def marshalCategory (c : DeveloperConsoleCatalogCategory) : Yaml :=
  Yaml.map (categoryMetaFields c.DeveloperConsoleCatalogCategoryMeta
    ++ emitUnless c.Subcategories.isEmpty "subcategories"
        (Yaml.seq (c.Subcategories.map marshalCategoryMeta)))

/-- Encoding of `DeveloperConsoleCatalogCustomization`: `categories` is written
even for a nil pointer (as null). -/
def marshalDeveloperCatalog (d : DeveloperConsoleCatalogCustomization) : Yaml :=
  Yaml.map (emit "categories"
      (ptrNode (fun cs => Yaml.seq (cs.map marshalCategory)) d.Categories)
    ++ emit "types" (marshalCatalogTypes d.Types))

/-- Encoding of `AddPage`. -/
def marshalAddPage (a : AddPage) : Yaml :=
  Yaml.map (omitStrs "disabledActions" a.DisabledActions)

/-- Encoding of `Providers`. -/
def marshalProviders (p : Providers) : Yaml :=
  Yaml.map (omitStr "statuspageID" p.StatuspageID)

section Ext

variable {RA PR Cap : Type}

/-- Encoding of `ResourceAttributesAccessReview`. -/
def marshalAccessReview (cs : Codec RA) (a : ResourceAttributesAccessReview RA) : Yaml :=
  Yaml.map (emitUnless a.Required.isEmpty "required" (Yaml.seq (a.Required.map cs.enc))
    ++ emitUnless a.Missing.isEmpty "missing" (Yaml.seq (a.Missing.map cs.enc)))

/-- Encoding of `PerspectiveVisibility`. -/
def marshalVisibility (cs : Codec RA) (v : PerspectiveVisibility RA) : Yaml :=
  Yaml.map (emit "state" (Yaml.str v.State)
    ++ emitPtr "accessReview" (marshalAccessReview cs) v.AccessReview)

/-- Encoding of `Perspective`. -/
def marshalPerspective (cs : ExtCodecs RA PR Cap) (p : Perspective RA PR) : Yaml :=
  Yaml.map (emit "id" (Yaml.str p.ID)
    ++ emit "visibility" (marshalVisibility cs.ra p.Visibility)
    ++ emitPtr "pinnedResources" (fun rs => Yaml.seq (rs.map cs.pr.enc)) p.PinnedResources)

/-- Encoding of `Customization`. -/
def marshalCustomization (cs : ExtCodecs RA PR Cap) (c : Customization RA PR Cap) : Yaml :=
  Yaml.map (omitStr "branding" c.Branding
    ++ omitStr "documentationBaseURL" c.DocumentationBaseURL
    ++ omitStr "customProductName" c.CustomProductName
    ++ omitStr "customLogoFile" c.CustomLogoFile
    ++ emitPtr "developerCatalog" marshalDeveloperCatalog c.DeveloperCatalog
    ++ emitUnless c.ProjectAccess.isZero "projectAccess" (marshalProjectAccess c.ProjectAccess)
    ++ emitUnless c.QuickStarts.isZero "quickStarts" (marshalQuickStarts c.QuickStarts)
    ++ emitUnless c.AddPage.isZero "addPage" (marshalAddPage c.AddPage)
    ++ emitUnless c.Perspectives.isEmpty "perspectives"
        (Yaml.seq (c.Perspectives.map (marshalPerspective cs)))
    ++ emitUnless c.Capabilities.isEmpty "capabilities"
        (Yaml.seq (c.Capabilities.map cs.cap.enc)))

/-- Mapping node of the `ContentSecurityPolicy` map. -/
def marshalCSP (m : List (String × List String)) : Yaml :=
  Yaml.map (m.map (fun kv => (kv.1, strSeq kv.2)))

/-- Encoding of `Config`, the document handed to the console server. -/
def marshalConfig (cs : ExtCodecs RA PR Cap) (c : Config RA PR Cap) : Yaml :=
  Yaml.map (emit "apiVersion" (Yaml.str c.APIVersion)
    ++ emit "kind" (Yaml.str c.Kind)
    ++ emit "servingInfo" (marshalServingInfo c.ServingInfo)
    ++ emit "clusterInfo" (marshalClusterInfo c.ClusterInfo)
    ++ emit "auth" (marshalAuth c.Auth)
    ++ emit "session" (marshalSession c.Session)
    ++ emit "customization" (marshalCustomization cs c.Customization)
    ++ emit "providers" (marshalProviders c.Providers)
    ++ emitUnless c.MonitoringInfo.isZero "monitoringInfo" (marshalMonitoringInfo c.MonitoringInfo)
    ++ emitUnless c.Plugins.isEmpty "plugins" (strMap c.Plugins)
    ++ omitStrs "i18nNamespaces" c.I18nNamespaces
    ++ emitUnless c.Proxy.isZero "proxy" (marshalProxy c.Proxy)
    ++ emitUnless c.ContentSecurityPolicy.isEmpty "contentSecurityPolicy"
        (marshalCSP c.ContentSecurityPolicy)
    ++ emitUnless c.Telemetry.isEmpty "telemetry" (strMap c.Telemetry))

end Ext

/-! ## Decoding

Decoding a node into a Go value, as the YAML library does it for these types: a
null node gives the zero value, a mapping is read into a struct by assigning
each field from the entry that carries its key (a field without an entry keeps
its zero value, entries with other keys are ignored), a sequence is read
element by element. A node of another kind than the target type is rejected. A
mapping with a repeated key is read through its last entry; the encoder above
never repeats a key. -/

/-- Decoding into a `string`. -/
def decStr : Yaml → Option String
  | Yaml.str s => some s
  | Yaml.null => some ""
  | _ => none

/-- Decoding into an `int` or `int64`. -/
def decInt : Yaml → Option Int
  | Yaml.int i => some i
  | Yaml.null => some 0
  | _ => none

/-- Decoding into a `bool`. -/
def decBool : Yaml → Option Bool
  | Yaml.bool b => some b
  | Yaml.null => some false
  | _ => none

/-- Decoding into an `interface{}`: the node itself. -/
def decAny : Yaml → Option Yaml := some

/-- Decoding every node of a list; fails when one element fails. -/
def decodeAll {α : Type} (d : Yaml → Option α) : List Yaml → Option (List α)
  | [] => some []
  | y :: ys =>
    match d y with
    | none => none
    | some x =>
      match decodeAll d ys with
      | none => none
      | some xs => some (x :: xs)

/-- Decoding into a slice. -/
def decSeq {α : Type} (d : Yaml → Option α) : Yaml → Option (List α)
  | Yaml.seq ys => decodeAll d ys
  | Yaml.null => some []
  | _ => none

/-- Decoding the entries of a mapping into the entries of a Go map. -/
def decodeEntries {α : Type} (d : Yaml → Option α) : Fields → Option (List (String × α))
  | [] => some []
  | (k, y) :: ys =>
    match d y with
    | none => none
    | some x =>
      match decodeEntries d ys with
      | none => none
      | some xs => some ((k, x) :: xs)

/-- Decoding into a Go map with string keys. -/
def decMap {α : Type} (d : Yaml → Option α) : Yaml → Option (List (String × α))
  | Yaml.map m => decodeEntries d m
  | Yaml.null => some []
  | _ => none

/-- Decoding into a struct whose fields are read by `f`. -/
def decStruct {α : Type} (zero : α) (f : Fields → Option α) : Yaml → Option α
  | Yaml.map m => f m
  | Yaml.null => some zero
  | _ => none

/-- Value of a struct field given the entry found for its key: the zero value
when there is no entry. -/
def fieldOf {α : Type} (d : Yaml → Option α) (zero : α) : Option Yaml → Option α
  | none => some zero
  | some v => d v

/-- Field of a struct read from the mapping `m`. -/
def field {α : Type} (d : Yaml → Option α) (zero : α) (m : Fields) (k : String) : Option α :=
  fieldOf d zero (lookupKey k m)

/-- Value of a pointer field given the entry found for its key: nil when there
is no entry or the entry is null. -/
def ptrOf {α : Type} (d : Yaml → Option α) : Option Yaml → Option (Option α)
  | none => some none
  | some Yaml.null => some none
  | some v => (d v).map some

/-- Sequencing of two decoding steps: the second runs on the result of the
first and is skipped when the first fails. -/
@[noinline] def andThen {α β : Type} (x : Option α) (k : α → Option β) : Option β :=
  match x with
  | none => none
  | some a => k a

/-- Pointer field of a struct read from the mapping `m`. -/
def ptrField {α : Type} (d : Yaml → Option α) (m : Fields) (k : String) : Option (Option α) :=
  ptrOf d (lookupKey k m)

/-- Decoding of `ProxyService`. -/
def unmarshalProxyService : Yaml → Option ProxyService :=
  decStruct {} fun m =>
    andThen (field decStr "" m "endpoint") fun a =>
    andThen (field decStr "" m "consoleAPIPath") fun b =>
    andThen (field decStr "" m "caCertificate") fun c =>
    andThen (field decBool false m "authorize") fun d =>
    some { Endpoint := a, ConsoleAPIPath := b, CACertificate := c, Authorize := d }

/-- Decoding of `Proxy`. -/
def unmarshalProxy : Yaml → Option Proxy :=
  decStruct {} fun m =>
    andThen (field (decSeq unmarshalProxyService) [] m "services") fun a =>
    some { Services := a }

/-- Decoding of `ServingInfo`. -/
def unmarshalServingInfo : Yaml → Option ServingInfo :=
  decStruct {} fun m =>
    andThen (field decStr "" m "bindAddress") fun a =>
    andThen (field decStr "" m "certFile") fun b =>
    andThen (field decStr "" m "keyFile") fun c =>
    andThen (field decInt 0 m "redirectPort") fun d =>
    andThen (field decStr "" m "bindNetwork") fun e =>
    andThen (field decStr "" m "clientCA") fun f =>
    andThen (field (decSeq decAny) [] m "namedCertificates") fun g =>
    andThen (field decStr "" m "minTLSVersion") fun h =>
    andThen (field (decSeq decStr) [] m "cipherSuites") fun i =>
    andThen (field decInt 0 m "maxRequestsInFlight") fun j =>
    andThen (field decInt 0 m "requestTimeoutSeconds") fun k =>
    some { BindAddress := a, CertFile := b, KeyFile := c, RedirectPort := d, BindNetwork := e,
           ClientCA := f, NamedCertificates := g, MinTLSVersion := h, CipherSuites := i,
           MaxRequestsInFlight := j, RequestTimeoutSeconds := k }

/-- Decoding of `ClusterInfo`. -/
def unmarshalClusterInfo : Yaml → Option ClusterInfo :=
  decStruct {} fun m =>
    andThen (field decStr "" m "consoleBaseAddress") fun a =>
    andThen (field decStr "" m "consoleBasePath") fun b =>
    andThen (field decStr "" m "masterPublicURL") fun c =>
    andThen (field decStr "" m "controlPlaneTopology") fun d =>
    andThen (field decStr "" m "releaseVersion") fun e =>
    andThen (field (decSeq decStr) [] m "nodeArchitectures") fun f =>
    andThen (field (decSeq decStr) [] m "nodeOperatingSystems") fun g =>
    andThen (field decBool false m "copiedCSVsDisabled") fun h =>
    some { ConsoleBaseAddress := a, ConsoleBasePath := b, MasterPublicURL := c,
           ControlPlaneToplogy := d, ReleaseVersion := e, NodeArchitectures := f,
           NodeOperatingSystems := g, CopiedCSVsDisabled := h }

/-- Decoding of `MonitoringInfo`. -/
def unmarshalMonitoringInfo : Yaml → Option MonitoringInfo :=
  decStruct {} fun m =>
    andThen (field decStr "" m "alertmanagerUserWorkloadHost") fun a =>
    andThen (field decStr "" m "alertmanagerTenancyHost") fun b =>
    some { AlertmanagerUserWorkloadHost := a, AlertmanagerTenancyHost := b }

/-- Decoding of `Auth`. -/
def unmarshalAuth : Yaml → Option Auth :=
  decStruct {} fun m =>
    andThen (field decStr "" m "authType") fun a =>
    andThen (field decStr "" m "oidcIssuer") fun b =>
    andThen (field (decSeq decStr) [] m "oidcExtraScopes") fun c =>
    andThen (field decStr "" m "oidcOCLoginCommand") fun d =>
    andThen (field decStr "" m "clientID") fun e =>
    andThen (field decStr "" m "clientSecretFile") fun f =>
    andThen (field decStr "" m "oauthEndpointCAFile") fun g =>
    andThen (field decStr "" m "logoutRedirect") fun h =>
    andThen (field decInt 0 m "inactivityTimeoutSeconds") fun i =>
    some { AuthType := a, OIDCIssuer := b, OIDCExtraScopes := c, OIDCOCLoginCommand := d,
           ClientID := e, ClientSecretFile := f, OAuthEndpointCAFile := g, LogoutRedirect := h,
           InactivityTimeoutSeconds := i }

/-- Decoding of `Session`. -/
def unmarshalSession : Yaml → Option Session :=
  decStruct {} fun m =>
    andThen (field decStr "" m "cookieEncryptionKeyFile") fun a =>
    andThen (field decStr "" m "cookieAuthenticationKeyFile") fun b =>
    some { CookieEncryptionKeyFile := a, CookieAuthenticationKeyFile := b }

/-- Decoding of `QuickStarts`. -/
def unmarshalQuickStarts : Yaml → Option QuickStarts :=
  decStruct {} fun m =>
    andThen (field (decSeq decStr) [] m "disabled") fun a =>
    some { Disabled := a }

/-- Decoding of `ProjectAccess`. -/
def unmarshalProjectAccess : Yaml → Option ProjectAccess :=
  decStruct {} fun m =>
    andThen (field (decSeq decStr) [] m "availableClusterRoles") fun a =>
    some { AvailableClusterRoles := a }

/-- Decoding of `DeveloperConsoleCatalogTypes`. -/
def unmarshalCatalogTypes : Yaml → Option DeveloperConsoleCatalogTypes :=
  decStruct {} fun m =>
    andThen (field decStr "" m "state") fun a =>
    andThen (ptrField (decSeq decStr) m "enabled") fun b =>
    andThen (ptrField (decSeq decStr) m "disabled") fun c =>
    some { State := a, Enabled := b, Disabled := c }

/-- Fields of `DeveloperConsoleCatalogCategoryMeta` read from a mapping. -/
def categoryMetaOfFields (m : Fields) : Option DeveloperConsoleCatalogCategoryMeta :=
  andThen (field decStr "" m "id") fun a =>
  andThen (field decStr "" m "label") fun b =>
  andThen (field (decSeq decStr) [] m "tags") fun c =>
  some { ID := a, Label := b, Tags := c }

/-- Decoding of `DeveloperConsoleCatalogCategoryMeta`. -/
def unmarshalCategoryMeta : Yaml → Option DeveloperConsoleCatalogCategoryMeta :=
  decStruct {} categoryMetaOfFields

/-- Decoding of `DeveloperConsoleCatalogCategory`: the inlined meta is read
from the mapping of the category itself. -/
def unmarshalCategory : Yaml → Option DeveloperConsoleCatalogCategory :=
  decStruct {} fun m =>
    andThen (categoryMetaOfFields m) fun a =>
    andThen (field (decSeq unmarshalCategoryMeta) [] m "subcategories") fun b =>
    some { DeveloperConsoleCatalogCategoryMeta := a, Subcategories := b }

/-- Decoding of `DeveloperConsoleCatalogCustomization`. -/
def unmarshalDeveloperCatalog : Yaml → Option DeveloperConsoleCatalogCustomization :=
  decStruct {} fun m =>
    andThen (ptrField (decSeq unmarshalCategory) m "categories") fun a =>
    andThen (field unmarshalCatalogTypes {} m "types") fun b =>
    some { Categories := a, Types := b }

/-- Decoding of `AddPage`. -/
def unmarshalAddPage : Yaml → Option AddPage :=
  decStruct {} fun m =>
    andThen (field (decSeq decStr) [] m "disabledActions") fun a =>
    some { DisabledActions := a }

/-- Decoding of `Providers`. -/
def unmarshalProviders : Yaml → Option Providers :=
  decStruct {} fun m =>
    andThen (field decStr "" m "statuspageID") fun a =>
    some { StatuspageID := a }

section Ext

variable {RA PR Cap : Type}

/-- Decoding of `ResourceAttributesAccessReview`. -/
def unmarshalAccessReview (cs : Codec RA) : Yaml → Option (ResourceAttributesAccessReview RA) :=
  decStruct {} fun m =>
    andThen (field (decSeq cs.dec) [] m "required") fun a =>
    andThen (field (decSeq cs.dec) [] m "missing") fun b =>
    some { Required := a, Missing := b }

/-- Decoding of `PerspectiveVisibility`. -/
def unmarshalVisibility (cs : Codec RA) : Yaml → Option (PerspectiveVisibility RA) :=
  decStruct {} fun m =>
    andThen (field decStr "" m "state") fun a =>
    andThen (ptrField (unmarshalAccessReview cs) m "accessReview") fun b =>
    some { State := a, AccessReview := b }

/-- Decoding of `Perspective`. -/
def unmarshalPerspective (cs : ExtCodecs RA PR Cap) : Yaml → Option (Perspective RA PR) :=
  decStruct {} fun m =>
    andThen (field decStr "" m "id") fun a =>
    andThen (field (unmarshalVisibility cs.ra) {} m "visibility") fun b =>
    andThen (ptrField (decSeq cs.pr.dec) m "pinnedResources") fun c =>
    some { ID := a, Visibility := b, PinnedResources := c }

/-- Decoding of `Customization`. -/
def unmarshalCustomization (cs : ExtCodecs RA PR Cap) : Yaml → Option (Customization RA PR Cap) :=
  decStruct {} fun m =>
    andThen (field decStr "" m "branding") fun a =>
    andThen (field decStr "" m "documentationBaseURL") fun b =>
    andThen (field decStr "" m "customProductName") fun c =>
    andThen (field decStr "" m "customLogoFile") fun d =>
    andThen (ptrField unmarshalDeveloperCatalog m "developerCatalog") fun e =>
    andThen (field unmarshalProjectAccess {} m "projectAccess") fun f =>
    andThen (field unmarshalQuickStarts {} m "quickStarts") fun g =>
    andThen (field unmarshalAddPage {} m "addPage") fun h =>
    andThen (field (decSeq (unmarshalPerspective cs)) [] m "perspectives") fun i =>
    andThen (field (decSeq cs.cap.dec) [] m "capabilities") fun j =>
    some { Branding := a, DocumentationBaseURL := b, CustomProductName := c, CustomLogoFile := d,
           DeveloperCatalog := e, ProjectAccess := f, QuickStarts := g, AddPage := h,
           Perspectives := i, Capabilities := j }

/-- Decoding of `Config`: what reading the document back into a zero `Config`
yields. -/
def unmarshalConfig (cs : ExtCodecs RA PR Cap) : Yaml → Option (Config RA PR Cap) :=
  decStruct {} fun m =>
    andThen (field decStr "" m "apiVersion") fun a =>
    andThen (field decStr "" m "kind") fun b =>
    andThen (field unmarshalServingInfo {} m "servingInfo") fun c =>
    andThen (field unmarshalClusterInfo {} m "clusterInfo") fun d =>
    andThen (field unmarshalAuth {} m "auth") fun e =>
    andThen (field unmarshalSession {} m "session") fun f =>
    andThen (field (unmarshalCustomization cs) {} m "customization") fun g =>
    andThen (field unmarshalProviders {} m "providers") fun h =>
    andThen (field unmarshalMonitoringInfo {} m "monitoringInfo") fun i =>
    andThen (field (decMap decStr) [] m "plugins") fun j =>
    andThen (field (decSeq decStr) [] m "i18nNamespaces") fun k =>
    andThen (field unmarshalProxy {} m "proxy") fun l =>
    andThen (field (decMap (decSeq decStr)) [] m "contentSecurityPolicy") fun n =>
    andThen (field (decMap decStr) [] m "telemetry") fun o =>
    some { APIVersion := a, Kind := b, ServingInfo := c, ClusterInfo := d, Auth := e,
           Session := f, Customization := g, Providers := h, MonitoringInfo := i, Plugins := j,
           I18nNamespaces := k, Proxy := l, ContentSecurityPolicy := n, Telemetry := o }

end Ext

/-! ## Resolution engine

The resolution operations are specified for this package but their code is not
part of the slice; they are modelled from their specification over the types
above. -/

/-- Modelled from the spec: answer of the access-review oracle for one
permission check, `Evaluate(resourceAttributes) → {Permitted, Denied, Error}`. -/
inductive OracleResult where
  | Permitted
  | Denied
  | Error
  deriving DecidableEq, Repr, Inhabited

/-- Modelled from the spec: outcome of resolving the visibility of a
perspective, `{Shown, Hidden}`. -/
inductive PerspectiveResolution where
  | Shown
  | Hidden
  deriving DecidableEq, Repr, Inhabited

/-- Modelled from the spec: error kinds of the resolution engine that abort a
resolution (validation error, oracle error). -/
inductive ResolveError where
  | ValidationError
  | OracleError
  deriving DecidableEq, Repr, Inhabited

/-- Modelled from the spec: `ResolvePerspectiveVisibility(perspective, reviewOracle)`,
whose code is missing from the slice. Enabled gives Shown and Disabled gives
Hidden without consulting the oracle. For AccessReview the checks of an absent
`AccessReview` are the empty lists; when Required and Missing are both empty the
result is Hidden; otherwise the oracle is asked once per check, an oracle error
is propagated, and the perspective is Shown iff every Required check is
permitted and (Missing is empty or at least one Missing check is denied). The
spec fixes no result for a state outside the three constants; the model is
fail-closed there. -/
def ResolvePerspectiveVisibility {RA PR : Type} (perspective : Perspective RA PR)
    (reviewOracle : RA → OracleResult) : Except ResolveError PerspectiveResolution :=
  if perspective.Visibility.State = PerspectiveEnabled then
    Except.ok PerspectiveResolution.Shown
  else if perspective.Visibility.State = PerspectiveDisabled then
    Except.ok PerspectiveResolution.Hidden
  else if perspective.Visibility.State = PerspectiveAccessReview then
    let required : List RA :=
      match perspective.Visibility.AccessReview with
      | none => []
      | some a => a.Required
    let missing : List RA :=
      match perspective.Visibility.AccessReview with
      | none => []
      | some a => a.Missing
    if required.isEmpty && missing.isEmpty then
      Except.ok PerspectiveResolution.Hidden
    else
      let req := required.map reviewOracle
      let mis := missing.map reviewOracle
      if (req ++ mis).any (fun r => decide (r = OracleResult.Error)) then
        Except.error ResolveError.OracleError
      else if req.all (fun r => decide (r = OracleResult.Permitted))
          && (mis.isEmpty || mis.any (fun r => decide (r = OracleResult.Denied))) then
        Except.ok PerspectiveResolution.Shown
      else
        Except.ok PerspectiveResolution.Hidden
  else
    Except.ok PerspectiveResolution.Hidden

/-- Modelled from the spec: the collision test of `ResolveProxyServices`; some
later entry of the list has the same `ConsoleAPIPath` as an earlier one. -/
def hasPathCollision : List ProxyService → Bool
  | [] => false
  | s :: rest =>
    rest.any (fun t => decide (t.ConsoleAPIPath = s.ConsoleAPIPath)) || hasPathCollision rest

/-- Modelled from the spec: `ResolveProxyServices(services)`, whose code is
missing from the slice: a configuration error when two entries share a
`ConsoleAPIPath`, otherwise the input sequence unchanged. -/
def ResolveProxyServices (services : List ProxyService) :
    Except ResolveError (List ProxyService) :=
  if hasPathCollision services then Except.error ResolveError.ValidationError
  else Except.ok services

/-- Modelled from the spec: `ValidateServingInfo(info)`, whose code is missing
from the slice: fails when one of the unsupported fields (bind network, client
CA, named certificates, min TLS version, cipher suites, max requests in flight,
request timeout) is set to a non-zero or non-empty value. -/
def ValidateServingInfo (info : ServingInfo) : Except ResolveError Unit :=
  if info.BindNetwork ≠ "" then Except.error ResolveError.ValidationError
  else if info.ClientCA ≠ "" then Except.error ResolveError.ValidationError
  else if !info.NamedCertificates.isEmpty then Except.error ResolveError.ValidationError
  else if info.MinTLSVersion ≠ "" then Except.error ResolveError.ValidationError
  else if !info.CipherSuites.isEmpty then Except.error ResolveError.ValidationError
  else if info.MaxRequestsInFlight ≠ 0 then Except.error ResolveError.ValidationError
  else if info.RequestTimeoutSeconds ≠ 0 then Except.error ResolveError.ValidationError
  else Except.ok ()

/-- Modelled from the spec: result of `ResolveCatalogTypes`: no filtering,
exactly the listed ids, or every type known to the consumer minus the listed
ids. -/
inductive CatalogTypesResolution where
  | showAll
  | only (ids : List String)
  | allExcept (ids : List String)
  deriving DecidableEq, Repr, Inhabited

/-- Modelled from the spec: ids in the given order, every id kept at its first
occurrence only; `seen` holds the ids already emitted. -/
def collapseFrom (seen : List String) : List String → List String
  | [] => []
  | x :: xs => if x ∈ seen then collapseFrom seen xs else x :: collapseFrom (x :: seen) xs

/-- Modelled from the spec: duplicates collapsed, first occurrence preserved. -/
def collapseDuplicates (ids : List String) : List String := collapseFrom [] ids

/-- Modelled from the spec: `ResolveCatalogTypes(customization)`, whose code is
missing from the slice. State Enabled with an Enabled list present: exactly
that list, order as given, duplicates collapsed to the first occurrence; State
Enabled with the list absent: show all. State Disabled with a Disabled list
present: the list is passed through verbatim for the consumer to subtract. The
spec leaves the remaining cases open (Disabled with no list, a state outside
the two constants); the model gives no result there. -/
def ResolveCatalogTypes (customization : DeveloperConsoleCatalogCustomization) :
    Option CatalogTypesResolution :=
  if customization.Types.State = CatalogTypeEnabled then
    match customization.Types.Enabled with
    | some ids => some (CatalogTypesResolution.only (collapseDuplicates ids))
    | none => some CatalogTypesResolution.showAll
  else if customization.Types.State = CatalogTypeDisabled then
    match customization.Types.Disabled with
    | some ids => some (CatalogTypesResolution.allExcept ids)
    | none => none
  else
    none

/-! ## Concrete instances

Strings stand in for the element types declared outside the slice. -/

/-- Codec of a string. -/
def strCodec : Codec String := { enc := Yaml.str, dec := decStr }

/-- Codecs with strings for the three outside element types. -/
def strCodecs : ExtCodecs String String String :=
  { ra := strCodec, pr := strCodec, cap := strCodec }

/-- Configuration in which only baseline fields are set. -/
def baselineOnlyConfig : Config String String String :=
  { APIVersion := "console.openshift.io/v1", Kind := "ConsoleConfig",
    ServingInfo := { BindAddress := "https://[::]:8443", RedirectPort := 8444 },
    ClusterInfo := { ConsoleBaseAddress := "https://console.example.com" },
    Auth := { ClientID := "console" },
    Customization := { Branding := "okd" } }

/-- Configuration with baseline and later fields set. -/
def populatedConfig : Config String String String :=
  { APIVersion := "console.openshift.io/v1", Kind := "ConsoleConfig",
    ServingInfo := { BindAddress := "https://[::]:8443" },
    Customization :=
      { Branding := "okd",
        DeveloperCatalog :=
          some { Categories := some [], Types := { State := "Enabled", Enabled := some [] } },
        Perspectives :=
          [{ ID := "dev",
             Visibility :=
               { State := "AccessReview",
                 AccessReview := some { Required := ["get namespaces"], Missing := [] } } }],
        Capabilities := ["LightspeedButton"] },
    Plugins := [("monitoring-plugin", "https://monitoring-plugin.example.com/")],
    Proxy := { Services := [{ Endpoint := "https://svc:9443", ConsoleAPIPath := "/api/proxy/a/" }] },
    Telemetry := [("DISABLED", "true")] }

/-- Perspective with state Enabled that still carries access-review checks. -/
def enabledPerspective : Perspective String String :=
  { ID := "admin",
    Visibility := { State := PerspectiveEnabled,
                    AccessReview := some { Required := ["get namespaces"], Missing := [] } } }

/-- Perspective gated on two required checks. -/
def reviewedPerspective : Perspective String String :=
  { ID := "dev",
    Visibility := { State := PerspectiveAccessReview,
                    AccessReview := some { Required := ["A", "B"], Missing := [] } } }

/-- Perspective with state AccessReview and no checks at all. -/
def uncheckedPerspective : Perspective String String :=
  { ID := "dev", Visibility := { State := PerspectiveAccessReview, AccessReview := some {} } }

/-- Catalog types with a nil `Enabled` pointer and a `Disabled` pointer to an
empty list. -/
def nilEnabledEmptyDisabled : DeveloperConsoleCatalogTypes :=
  { State := CatalogTypeDisabled, Enabled := none, Disabled := some [] }

/-- Oracle that fails on every check. -/
def failingOracle : String → OracleResult := fun _ => OracleResult.Error

/-- Oracle that permits every check. -/
def permissiveOracle : String → OracleResult := fun _ => OracleResult.Permitted

/-- Catalog customization that enables one type and also carries a disabled
list. -/
def devfileOnly : DeveloperConsoleCatalogCustomization :=
  { Types := { State := CatalogTypeEnabled, Enabled := some ["Devfile"],
               Disabled := some ["HelmChart"] } }

end consoleserver

/-! ## Generated apply configurations (`etcd.go`, `insightsdatagather.go`)

A method on a pointer receiver is a function from the configuration before the
call to the configuration after it. `Time`, `OwnerRef`, `Spec` and `Status`
stand for `metav1.Time`, `v1.OwnerReferenceApplyConfiguration` and the spec and
status types of the resource. -/

namespace applyconfigurations

/-- Go: `v1.TypeMetaApplyConfiguration`, the fields the builders set. -/
structure TypeMetaApplyConfiguration where
  Kind : Option String := none
  APIVersion : Option String := none
  deriving DecidableEq, Repr, Inhabited

/-- Go: `v1.ObjectMetaApplyConfiguration`, the fields the builders set. A nil
map is `none`; `types.UID` is a string type. -/
structure ObjectMetaApplyConfiguration (Time OwnerRef : Type) where
  Name : Option String := none
  GenerateName : Option String := none
  Namespace : Option String := none
  UID : Option String := none
  ResourceVersion : Option String := none
  Generation : Option Int := none
  CreationTimestamp : Option Time := none
  DeletionTimestamp : Option Time := none
  DeletionGracePeriodSeconds : Option Int := none
  Labels : Option (List (String × String)) := none
  Annotations : Option (List (String × String)) := none
  OwnerReferences : List OwnerRef := []
  Finalizers : List String := []
  deriving DecidableEq, Repr, Inhabited

/-- Go: `type EtcdApplyConfiguration struct`. -/
structure EtcdApplyConfiguration (Time OwnerRef Spec Status : Type) where
  TypeMetaApplyConfiguration : TypeMetaApplyConfiguration := {}
  ObjectMetaApplyConfiguration : Option (ObjectMetaApplyConfiguration Time OwnerRef) := none
  Spec : Option Spec := none
  Status : Option Status := none
  deriving DecidableEq, Repr, Inhabited

/-- Go: `type InsightsDataGatherApplyConfiguration struct`. -/
structure InsightsDataGatherApplyConfiguration (Time OwnerRef Spec Status : Type) where
  TypeMetaApplyConfiguration : TypeMetaApplyConfiguration := {}
  ObjectMetaApplyConfiguration : Option (ObjectMetaApplyConfiguration Time OwnerRef) := none
  Spec : Option Spec := none
  Status : Option Status := none
  deriving DecidableEq, Repr, Inhabited

/-- Go: read `m[k]` of a map given by its entries. -/
def mapGet (m : List (String × String)) (k : String) : Option String :=
  match m with
  | [] => none
  | (k2, v) :: rest => if k2 = k then some v else mapGet rest k

/-- Go: read `m[k]` of a possibly nil map; a nil map has no entry. -/
def mapLookup (m : Option (List (String × String))) (k : String) : Option String :=
  match m with
  | none => none
  | some es => mapGet es k

/-- Go: `m[k] = v` on the entries of a non-nil map: the entry of `k` is
replaced, or added when there is none. -/
def mapSet (m : List (String × String)) (k v : String) : List (String × String) :=
  match m with
  | [] => [(k, v)]
  | (k2, v2) :: rest => if k2 = k then (k, v) :: rest else (k2, v2) :: mapSet rest k v

/-- Go: `m[k] = v` on a possibly nil map; assigning into a nil map panics. -/
def mapAssign (m : Option (List (String × String))) (k v : String) :
    Except String (Option (List (String × String))) :=
  match m with
  | none => Except.error "assignment to entry in nil map"
  | some es => Except.ok (some (mapSet es k v))

/-- Go: `for k, v := range entries { m[k] = v }`, the entries taken in the
order the loop visits them. -/
def assignEntries (m : Option (List (String × String))) :
    List (String × String) → Except String (Option (List (String × String)))
  | [] => Except.ok m
  | (k, v) :: rest =>
    match mapAssign m k v with
    | Except.error e => Except.error e
    | Except.ok m1 => assignEntries m1 rest

/-- Go: the loop of `WithOwnerReferences`: panic on a nil value, append the
pointed-to value otherwise. -/
def appendOwnerReferences {OwnerRef : Type} (refs : List OwnerRef) :
    List (Option OwnerRef) → Except String (List OwnerRef)
  | [] => Except.ok refs
  | none :: _ => Except.error "nil value passed to WithOwnerReferences"
  | some v :: rest => appendOwnerReferences (refs ++ [v]) rest

/-- Go: the loop of `WithFinalizers`: every value is appended in turn. -/
def appendFinalizers (finalizers : List String) : List String → List String
  | [] => finalizers
  | v :: rest => appendFinalizers (finalizers ++ [v]) rest

section Builders

variable {Time OwnerRef Spec Status : Type}

/-- Go: `(b *EtcdApplyConfiguration) ensureObjectMetaApplyConfigurationExists`. -/
def EtcdApplyConfiguration.ensureObjectMetaApplyConfigurationExists
    (b : EtcdApplyConfiguration Time OwnerRef Spec Status) :
    EtcdApplyConfiguration Time OwnerRef Spec Status :=
  match b.ObjectMetaApplyConfiguration with
  | none => { b with ObjectMetaApplyConfiguration := some {} }
  | some _ => b

/-- Object meta of a configuration on which it is known to exist. -/
def EtcdApplyConfiguration.objectMeta (b : EtcdApplyConfiguration Time OwnerRef Spec Status) :
    applyconfigurations.ObjectMetaApplyConfiguration Time OwnerRef :=
  match b.ObjectMetaApplyConfiguration with
  | none => {}
  | some m => m

/-- Go: `(b *EtcdApplyConfiguration) WithKind`. -/
def EtcdApplyConfiguration.WithKind (b : EtcdApplyConfiguration Time OwnerRef Spec Status)
    (value : String) : EtcdApplyConfiguration Time OwnerRef Spec Status :=
  { b with TypeMetaApplyConfiguration := { b.TypeMetaApplyConfiguration with Kind := some value } }

/-- Go: `(b *EtcdApplyConfiguration) WithAPIVersion`. -/
def EtcdApplyConfiguration.WithAPIVersion (b : EtcdApplyConfiguration Time OwnerRef Spec Status)
    (value : String) : EtcdApplyConfiguration Time OwnerRef Spec Status :=
  { b with
    TypeMetaApplyConfiguration := { b.TypeMetaApplyConfiguration with APIVersion := some value } }

/-- Go: `(b *EtcdApplyConfiguration) WithName`. -/
def EtcdApplyConfiguration.WithName (b : EtcdApplyConfiguration Time OwnerRef Spec Status)
    (value : String) : EtcdApplyConfiguration Time OwnerRef Spec Status :=
  let b1 := b.ensureObjectMetaApplyConfigurationExists
  { b1 with ObjectMetaApplyConfiguration := some { b1.objectMeta with Name := some value } }

/-- Go: `(b *EtcdApplyConfiguration) GetName`: the configuration after the call
(the object meta is created when missing) and the returned pointer. -/
def EtcdApplyConfiguration.GetName (b : EtcdApplyConfiguration Time OwnerRef Spec Status) :
    EtcdApplyConfiguration Time OwnerRef Spec Status × Option String :=
  let b1 := b.ensureObjectMetaApplyConfigurationExists
  (b1, b1.objectMeta.Name)

/-- Go: `func Etcd(name string) *EtcdApplyConfiguration`. -/
def Etcd (name : String) : EtcdApplyConfiguration Time OwnerRef Spec Status :=
  let b : EtcdApplyConfiguration Time OwnerRef Spec Status := {}
  let b := b.WithName name
  let b := b.WithKind "Etcd"
  let b := b.WithAPIVersion "operator.openshift.io/v1"
  b

/-- Go: `(b *InsightsDataGatherApplyConfiguration) ensureObjectMetaApplyConfigurationExists`. -/
def InsightsDataGatherApplyConfiguration.ensureObjectMetaApplyConfigurationExists
    (b : InsightsDataGatherApplyConfiguration Time OwnerRef Spec Status) :
    InsightsDataGatherApplyConfiguration Time OwnerRef Spec Status :=
  match b.ObjectMetaApplyConfiguration with
  | none => { b with ObjectMetaApplyConfiguration := some {} }
  | some _ => b

/-- Object meta of a configuration on which it is known to exist. -/
def InsightsDataGatherApplyConfiguration.objectMeta
    (b : InsightsDataGatherApplyConfiguration Time OwnerRef Spec Status) :
    applyconfigurations.ObjectMetaApplyConfiguration Time OwnerRef :=
  match b.ObjectMetaApplyConfiguration with
  | none => {}
  | some m => m

/-- Go: `(b *InsightsDataGatherApplyConfiguration) WithKind`. -/
def InsightsDataGatherApplyConfiguration.WithKind
    (b : InsightsDataGatherApplyConfiguration Time OwnerRef Spec Status) (value : String) :
    InsightsDataGatherApplyConfiguration Time OwnerRef Spec Status :=
  { b with TypeMetaApplyConfiguration := { b.TypeMetaApplyConfiguration with Kind := some value } }

/-- Go: `(b *InsightsDataGatherApplyConfiguration) WithAPIVersion`. -/
def InsightsDataGatherApplyConfiguration.WithAPIVersion
    (b : InsightsDataGatherApplyConfiguration Time OwnerRef Spec Status) (value : String) :
    InsightsDataGatherApplyConfiguration Time OwnerRef Spec Status :=
  { b with
    TypeMetaApplyConfiguration := { b.TypeMetaApplyConfiguration with APIVersion := some value } }

/-- Go: `(b *InsightsDataGatherApplyConfiguration) WithName`. -/
def InsightsDataGatherApplyConfiguration.WithName
    (b : InsightsDataGatherApplyConfiguration Time OwnerRef Spec Status) (value : String) :
    InsightsDataGatherApplyConfiguration Time OwnerRef Spec Status :=
  let b1 := b.ensureObjectMetaApplyConfigurationExists
  { b1 with ObjectMetaApplyConfiguration := some { b1.objectMeta with Name := some value } }

/-- Go: `(b *InsightsDataGatherApplyConfiguration) GetName`: the configuration
after the call and the returned pointer. -/
def InsightsDataGatherApplyConfiguration.GetName
    (b : InsightsDataGatherApplyConfiguration Time OwnerRef Spec Status) :
    InsightsDataGatherApplyConfiguration Time OwnerRef Spec Status × Option String :=
  let b1 := b.ensureObjectMetaApplyConfigurationExists
  (b1, b1.objectMeta.Name)

/-- Go: `func InsightsDataGather(name string) *InsightsDataGatherApplyConfiguration`. -/
def InsightsDataGather (name : String) :
    InsightsDataGatherApplyConfiguration Time OwnerRef Spec Status :=
  let b : InsightsDataGatherApplyConfiguration Time OwnerRef Spec Status := {}
  let b := b.WithName name
  let b := b.WithKind "InsightsDataGather"
  let b := b.WithAPIVersion "config.openshift.io/v1alpha1"
  b

/-- Go: `(b *EtcdApplyConfiguration) WithGenerateName`. -/
def EtcdApplyConfiguration.WithGenerateName (b : EtcdApplyConfiguration Time OwnerRef Spec Status)
    (value : String) : EtcdApplyConfiguration Time OwnerRef Spec Status :=
  let b1 := b.ensureObjectMetaApplyConfigurationExists
  { b1 with ObjectMetaApplyConfiguration := some { b1.objectMeta with GenerateName := some value } }

/-- Go: `(b *EtcdApplyConfiguration) WithNamespace`. -/
def EtcdApplyConfiguration.WithNamespace (b : EtcdApplyConfiguration Time OwnerRef Spec Status)
    (value : String) : EtcdApplyConfiguration Time OwnerRef Spec Status :=
  let b1 := b.ensureObjectMetaApplyConfigurationExists
  { b1 with ObjectMetaApplyConfiguration := some { b1.objectMeta with Namespace := some value } }

/-- Go: `(b *EtcdApplyConfiguration) WithUID`. -/
def EtcdApplyConfiguration.WithUID (b : EtcdApplyConfiguration Time OwnerRef Spec Status)
    (value : String) : EtcdApplyConfiguration Time OwnerRef Spec Status :=
  let b1 := b.ensureObjectMetaApplyConfigurationExists
  { b1 with ObjectMetaApplyConfiguration := some { b1.objectMeta with UID := some value } }

/-- Go: `(b *EtcdApplyConfiguration) WithResourceVersion`. -/
def EtcdApplyConfiguration.WithResourceVersion (b : EtcdApplyConfiguration Time OwnerRef Spec Status)
    (value : String) : EtcdApplyConfiguration Time OwnerRef Spec Status :=
  let b1 := b.ensureObjectMetaApplyConfigurationExists
  { b1 with ObjectMetaApplyConfiguration := some { b1.objectMeta with ResourceVersion := some value } }

/-- Go: `(b *EtcdApplyConfiguration) WithGeneration`. -/
def EtcdApplyConfiguration.WithGeneration (b : EtcdApplyConfiguration Time OwnerRef Spec Status)
    (value : Int) : EtcdApplyConfiguration Time OwnerRef Spec Status :=
  let b1 := b.ensureObjectMetaApplyConfigurationExists
  { b1 with ObjectMetaApplyConfiguration := some { b1.objectMeta with Generation := some value } }

/-- Go: `(b *EtcdApplyConfiguration) WithCreationTimestamp`. -/
def EtcdApplyConfiguration.WithCreationTimestamp (b : EtcdApplyConfiguration Time OwnerRef Spec Status)
    (value : Time) : EtcdApplyConfiguration Time OwnerRef Spec Status :=
  let b1 := b.ensureObjectMetaApplyConfigurationExists
  { b1 with ObjectMetaApplyConfiguration := some { b1.objectMeta with CreationTimestamp := some value } }

/-- Go: `(b *EtcdApplyConfiguration) WithDeletionTimestamp`. -/
def EtcdApplyConfiguration.WithDeletionTimestamp (b : EtcdApplyConfiguration Time OwnerRef Spec Status)
    (value : Time) : EtcdApplyConfiguration Time OwnerRef Spec Status :=
  let b1 := b.ensureObjectMetaApplyConfigurationExists
  { b1 with ObjectMetaApplyConfiguration := some { b1.objectMeta with DeletionTimestamp := some value } }

/-- Go: `(b *EtcdApplyConfiguration) WithDeletionGracePeriodSeconds`. -/
def EtcdApplyConfiguration.WithDeletionGracePeriodSeconds (b : EtcdApplyConfiguration Time OwnerRef Spec Status)
    (value : Int) : EtcdApplyConfiguration Time OwnerRef Spec Status :=
  let b1 := b.ensureObjectMetaApplyConfigurationExists
  { b1 with ObjectMetaApplyConfiguration := some { b1.objectMeta with DeletionGracePeriodSeconds := some value } }

/-- Go: `(b *EtcdApplyConfiguration) WithLabels`: the map is created when it is nil and there
are entries, then every entry is assigned. An error stands for a run-time
panic. -/
def EtcdApplyConfiguration.WithLabels (b : EtcdApplyConfiguration Time OwnerRef Spec Status)
    (entries : List (String × String)) : Except String (EtcdApplyConfiguration Time OwnerRef Spec Status) :=
  let b1 := b.ensureObjectMetaApplyConfigurationExists
  let m0 : Option (List (String × String)) :=
    if b1.objectMeta.Labels.isNone && decide (entries.length > 0) then some []
    else b1.objectMeta.Labels
  match assignEntries m0 entries with
  | Except.error e => Except.error e
  | Except.ok m =>
    Except.ok { b1 with ObjectMetaApplyConfiguration := some { b1.objectMeta with Labels := m } }

/-- Go: `(b *EtcdApplyConfiguration) WithAnnotations`: the map is created when it is nil and there
are entries, then every entry is assigned. An error stands for a run-time
panic. -/
def EtcdApplyConfiguration.WithAnnotations (b : EtcdApplyConfiguration Time OwnerRef Spec Status)
    (entries : List (String × String)) : Except String (EtcdApplyConfiguration Time OwnerRef Spec Status) :=
  let b1 := b.ensureObjectMetaApplyConfigurationExists
  let m0 : Option (List (String × String)) :=
    if b1.objectMeta.Annotations.isNone && decide (entries.length > 0) then some []
    else b1.objectMeta.Annotations
  match assignEntries m0 entries with
  | Except.error e => Except.error e
  | Except.ok m =>
    Except.ok { b1 with ObjectMetaApplyConfiguration := some { b1.objectMeta with Annotations := m } }

/-- Go: `(b *EtcdApplyConfiguration) WithOwnerReferences`: panics on a nil value, appends the
pointed-to value otherwise. -/
def EtcdApplyConfiguration.WithOwnerReferences (b : EtcdApplyConfiguration Time OwnerRef Spec Status)
    (values : List (Option OwnerRef)) : Except String (EtcdApplyConfiguration Time OwnerRef Spec Status) :=
  let b1 := b.ensureObjectMetaApplyConfigurationExists
  match appendOwnerReferences b1.objectMeta.OwnerReferences values with
  | Except.error e => Except.error e
  | Except.ok refs =>
    Except.ok
      { b1 with ObjectMetaApplyConfiguration := some { b1.objectMeta with OwnerReferences := refs } }

/-- Go: `(b *EtcdApplyConfiguration) WithFinalizers`. -/
def EtcdApplyConfiguration.WithFinalizers (b : EtcdApplyConfiguration Time OwnerRef Spec Status)
    (values : List String) : EtcdApplyConfiguration Time OwnerRef Spec Status :=
  let b1 := b.ensureObjectMetaApplyConfigurationExists
  { b1 with
    ObjectMetaApplyConfiguration :=
      some { b1.objectMeta with Finalizers := appendFinalizers b1.objectMeta.Finalizers values } }

/-- Go: `(b *EtcdApplyConfiguration) WithSpec`; the argument is a pointer. -/
def EtcdApplyConfiguration.WithSpec (b : EtcdApplyConfiguration Time OwnerRef Spec Status)
    (value : Option Spec) : EtcdApplyConfiguration Time OwnerRef Spec Status :=
  { b with Spec := value }

/-- Go: `(b *EtcdApplyConfiguration) WithStatus`; the argument is a pointer. -/
def EtcdApplyConfiguration.WithStatus (b : EtcdApplyConfiguration Time OwnerRef Spec Status)
    (value : Option Status) : EtcdApplyConfiguration Time OwnerRef Spec Status :=
  { b with Status := value }

/-- Go: `extractEtcd`. `ExtractInto` stands for `managedfields.ExtractInto`,
called with the object, the name of the parser type, the field manager, the
fresh configuration and the subresource; it returns the configuration it
filled in, or its error. `nameOf` reads the `Name` of the object. -/
def extractEtcd {Obj Err : Type}
    (ExtractInto : Obj → String → String → EtcdApplyConfiguration Time OwnerRef Spec Status → String →
      Except Err (EtcdApplyConfiguration Time OwnerRef Spec Status))
    (nameOf : Obj → String) (obj : Obj) (fieldManager subresource : String) :
    Except Err (EtcdApplyConfiguration Time OwnerRef Spec Status) :=
  let b : EtcdApplyConfiguration Time OwnerRef Spec Status := {}
  match ExtractInto obj "com.github.openshift.api.operator.v1.Etcd" fieldManager b subresource with
  | Except.error err => Except.error err
  | Except.ok b =>
    let b := b.WithName (nameOf obj)
    let b := b.WithKind "Etcd"
    let b := b.WithAPIVersion "operator.openshift.io/v1"
    Except.ok b

/-- Go: `ExtractEtcd`. -/
def ExtractEtcd {Obj Err : Type}
    (ExtractInto : Obj → String → String → EtcdApplyConfiguration Time OwnerRef Spec Status → String →
      Except Err (EtcdApplyConfiguration Time OwnerRef Spec Status))
    (nameOf : Obj → String) (obj : Obj) (fieldManager : String) :
    Except Err (EtcdApplyConfiguration Time OwnerRef Spec Status) :=
  extractEtcd ExtractInto nameOf obj fieldManager ""

/-- Go: `ExtractEtcdStatus`. -/
def ExtractEtcdStatus {Obj Err : Type}
    (ExtractInto : Obj → String → String → EtcdApplyConfiguration Time OwnerRef Spec Status → String →
      Except Err (EtcdApplyConfiguration Time OwnerRef Spec Status))
    (nameOf : Obj → String) (obj : Obj) (fieldManager : String) :
    Except Err (EtcdApplyConfiguration Time OwnerRef Spec Status) :=
  extractEtcd ExtractInto nameOf obj fieldManager "status"

/-- Go: `(b *InsightsDataGatherApplyConfiguration) WithGenerateName`. -/
def InsightsDataGatherApplyConfiguration.WithGenerateName (b : InsightsDataGatherApplyConfiguration Time OwnerRef Spec Status)
    (value : String) : InsightsDataGatherApplyConfiguration Time OwnerRef Spec Status :=
  let b1 := b.ensureObjectMetaApplyConfigurationExists
  { b1 with ObjectMetaApplyConfiguration := some { b1.objectMeta with GenerateName := some value } }

/-- Go: `(b *InsightsDataGatherApplyConfiguration) WithNamespace`. -/
def InsightsDataGatherApplyConfiguration.WithNamespace (b : InsightsDataGatherApplyConfiguration Time OwnerRef Spec Status)
    (value : String) : InsightsDataGatherApplyConfiguration Time OwnerRef Spec Status :=
  let b1 := b.ensureObjectMetaApplyConfigurationExists
  { b1 with ObjectMetaApplyConfiguration := some { b1.objectMeta with Namespace := some value } }

/-- Go: `(b *InsightsDataGatherApplyConfiguration) WithUID`. -/
def InsightsDataGatherApplyConfiguration.WithUID (b : InsightsDataGatherApplyConfiguration Time OwnerRef Spec Status)
    (value : String) : InsightsDataGatherApplyConfiguration Time OwnerRef Spec Status :=
  let b1 := b.ensureObjectMetaApplyConfigurationExists
  { b1 with ObjectMetaApplyConfiguration := some { b1.objectMeta with UID := some value } }

/-- Go: `(b *InsightsDataGatherApplyConfiguration) WithResourceVersion`. -/
def InsightsDataGatherApplyConfiguration.WithResourceVersion (b : InsightsDataGatherApplyConfiguration Time OwnerRef Spec Status)
    (value : String) : InsightsDataGatherApplyConfiguration Time OwnerRef Spec Status :=
  let b1 := b.ensureObjectMetaApplyConfigurationExists
  { b1 with ObjectMetaApplyConfiguration := some { b1.objectMeta with ResourceVersion := some value } }

/-- Go: `(b *InsightsDataGatherApplyConfiguration) WithGeneration`. -/
def InsightsDataGatherApplyConfiguration.WithGeneration (b : InsightsDataGatherApplyConfiguration Time OwnerRef Spec Status)
    (value : Int) : InsightsDataGatherApplyConfiguration Time OwnerRef Spec Status :=
  let b1 := b.ensureObjectMetaApplyConfigurationExists
  { b1 with ObjectMetaApplyConfiguration := some { b1.objectMeta with Generation := some value } }

/-- Go: `(b *InsightsDataGatherApplyConfiguration) WithCreationTimestamp`. -/
def InsightsDataGatherApplyConfiguration.WithCreationTimestamp (b : InsightsDataGatherApplyConfiguration Time OwnerRef Spec Status)
    (value : Time) : InsightsDataGatherApplyConfiguration Time OwnerRef Spec Status :=
  let b1 := b.ensureObjectMetaApplyConfigurationExists
  { b1 with ObjectMetaApplyConfiguration := some { b1.objectMeta with CreationTimestamp := some value } }

/-- Go: `(b *InsightsDataGatherApplyConfiguration) WithDeletionTimestamp`. -/
def InsightsDataGatherApplyConfiguration.WithDeletionTimestamp (b : InsightsDataGatherApplyConfiguration Time OwnerRef Spec Status)
    (value : Time) : InsightsDataGatherApplyConfiguration Time OwnerRef Spec Status :=
  let b1 := b.ensureObjectMetaApplyConfigurationExists
  { b1 with ObjectMetaApplyConfiguration := some { b1.objectMeta with DeletionTimestamp := some value } }

/-- Go: `(b *InsightsDataGatherApplyConfiguration) WithDeletionGracePeriodSeconds`. -/
def InsightsDataGatherApplyConfiguration.WithDeletionGracePeriodSeconds (b : InsightsDataGatherApplyConfiguration Time OwnerRef Spec Status)
    (value : Int) : InsightsDataGatherApplyConfiguration Time OwnerRef Spec Status :=
  let b1 := b.ensureObjectMetaApplyConfigurationExists
  { b1 with ObjectMetaApplyConfiguration := some { b1.objectMeta with DeletionGracePeriodSeconds := some value } }

/-- Go: `(b *InsightsDataGatherApplyConfiguration) WithLabels`: the map is created when it is nil and there
are entries, then every entry is assigned. An error stands for a run-time
panic. -/
def InsightsDataGatherApplyConfiguration.WithLabels (b : InsightsDataGatherApplyConfiguration Time OwnerRef Spec Status)
    (entries : List (String × String)) : Except String (InsightsDataGatherApplyConfiguration Time OwnerRef Spec Status) :=
  let b1 := b.ensureObjectMetaApplyConfigurationExists
  let m0 : Option (List (String × String)) :=
    if b1.objectMeta.Labels.isNone && decide (entries.length > 0) then some []
    else b1.objectMeta.Labels
  match assignEntries m0 entries with
  | Except.error e => Except.error e
  | Except.ok m =>
    Except.ok { b1 with ObjectMetaApplyConfiguration := some { b1.objectMeta with Labels := m } }

/-- Go: `(b *InsightsDataGatherApplyConfiguration) WithAnnotations`: the map is created when it is nil and there
are entries, then every entry is assigned. An error stands for a run-time
panic. -/
def InsightsDataGatherApplyConfiguration.WithAnnotations (b : InsightsDataGatherApplyConfiguration Time OwnerRef Spec Status)
    (entries : List (String × String)) : Except String (InsightsDataGatherApplyConfiguration Time OwnerRef Spec Status) :=
  let b1 := b.ensureObjectMetaApplyConfigurationExists
  let m0 : Option (List (String × String)) :=
    if b1.objectMeta.Annotations.isNone && decide (entries.length > 0) then some []
    else b1.objectMeta.Annotations
  match assignEntries m0 entries with
  | Except.error e => Except.error e
  | Except.ok m =>
    Except.ok { b1 with ObjectMetaApplyConfiguration := some { b1.objectMeta with Annotations := m } }

/-- Go: `(b *InsightsDataGatherApplyConfiguration) WithOwnerReferences`: panics on a nil value, appends the
pointed-to value otherwise. -/
def InsightsDataGatherApplyConfiguration.WithOwnerReferences (b : InsightsDataGatherApplyConfiguration Time OwnerRef Spec Status)
    (values : List (Option OwnerRef)) : Except String (InsightsDataGatherApplyConfiguration Time OwnerRef Spec Status) :=
  let b1 := b.ensureObjectMetaApplyConfigurationExists
  match appendOwnerReferences b1.objectMeta.OwnerReferences values with
  | Except.error e => Except.error e
  | Except.ok refs =>
    Except.ok
      { b1 with ObjectMetaApplyConfiguration := some { b1.objectMeta with OwnerReferences := refs } }

/-- Go: `(b *InsightsDataGatherApplyConfiguration) WithFinalizers`. -/
def InsightsDataGatherApplyConfiguration.WithFinalizers (b : InsightsDataGatherApplyConfiguration Time OwnerRef Spec Status)
    (values : List String) : InsightsDataGatherApplyConfiguration Time OwnerRef Spec Status :=
  let b1 := b.ensureObjectMetaApplyConfigurationExists
  { b1 with
    ObjectMetaApplyConfiguration :=
      some { b1.objectMeta with Finalizers := appendFinalizers b1.objectMeta.Finalizers values } }

/-- Go: `(b *InsightsDataGatherApplyConfiguration) WithSpec`; the argument is a pointer. -/
def InsightsDataGatherApplyConfiguration.WithSpec (b : InsightsDataGatherApplyConfiguration Time OwnerRef Spec Status)
    (value : Option Spec) : InsightsDataGatherApplyConfiguration Time OwnerRef Spec Status :=
  { b with Spec := value }

/-- Go: `(b *InsightsDataGatherApplyConfiguration) WithStatus`; the argument is a value whose
address is stored. -/
def InsightsDataGatherApplyConfiguration.WithStatus (b : InsightsDataGatherApplyConfiguration Time OwnerRef Spec Status)
    (value : Status) : InsightsDataGatherApplyConfiguration Time OwnerRef Spec Status :=
  { b with Status := some value }

/-- Go: `extractInsightsDataGather`. `ExtractInto` stands for `managedfields.ExtractInto`,
called with the object, the name of the parser type, the field manager, the
fresh configuration and the subresource; it returns the configuration it
filled in, or its error. `nameOf` reads the `Name` of the object. -/
def extractInsightsDataGather {Obj Err : Type}
    (ExtractInto : Obj → String → String → InsightsDataGatherApplyConfiguration Time OwnerRef Spec Status → String →
      Except Err (InsightsDataGatherApplyConfiguration Time OwnerRef Spec Status))
    (nameOf : Obj → String) (obj : Obj) (fieldManager subresource : String) :
    Except Err (InsightsDataGatherApplyConfiguration Time OwnerRef Spec Status) :=
  let b : InsightsDataGatherApplyConfiguration Time OwnerRef Spec Status := {}
  match ExtractInto obj "com.github.openshift.api.config.v1alpha1.InsightsDataGather" fieldManager b subresource with
  | Except.error err => Except.error err
  | Except.ok b =>
    let b := b.WithName (nameOf obj)
    let b := b.WithKind "InsightsDataGather"
    let b := b.WithAPIVersion "config.openshift.io/v1alpha1"
    Except.ok b

/-- Go: `ExtractInsightsDataGather`. -/
def ExtractInsightsDataGather {Obj Err : Type}
    (ExtractInto : Obj → String → String → InsightsDataGatherApplyConfiguration Time OwnerRef Spec Status → String →
      Except Err (InsightsDataGatherApplyConfiguration Time OwnerRef Spec Status))
    (nameOf : Obj → String) (obj : Obj) (fieldManager : String) :
    Except Err (InsightsDataGatherApplyConfiguration Time OwnerRef Spec Status) :=
  extractInsightsDataGather ExtractInto nameOf obj fieldManager ""

/-- Go: `ExtractInsightsDataGatherStatus`. -/
def ExtractInsightsDataGatherStatus {Obj Err : Type}
    (ExtractInto : Obj → String → String → InsightsDataGatherApplyConfiguration Time OwnerRef Spec Status → String →
      Except Err (InsightsDataGatherApplyConfiguration Time OwnerRef Spec Status))
    (nameOf : Obj → String) (obj : Obj) (fieldManager : String) :
    Except Err (InsightsDataGatherApplyConfiguration Time OwnerRef Spec Status) :=
  extractInsightsDataGather ExtractInto nameOf obj fieldManager "status"

/-- Extraction that finds no managed fields: the fresh configuration is left
as it is. Used for concrete instances, with the name of the object as the
object. -/
def extractNothing {C : Type} : String → String → String → C → String → Except String C :=
  fun _ _ _ b _ => Except.ok b

end Builders

/-- Etcd configuration that already carries two labels. -/
def labelledEtcd : EtcdApplyConfiguration String String String String :=
  { ObjectMetaApplyConfiguration :=
      some { Name := some "cluster", Labels := some [("app", "old"), ("zone", "a")] } }

/-- InsightsDataGather configuration without object meta. -/
def bareGather : InsightsDataGatherApplyConfiguration String String String String := {}

/-- Entries of a map with two keys. -/
def newLabels : List (String × String) := [("app", "etcd"), ("tier", "control-plane")]

end applyconfigurations

/-! # Theorems -/

namespace consoleserver

/-! ## Lookup in encoded mappings and decoding of single fields -/

theorem lookupKey_append (k : String) (a b : Fields) :
    lookupKey k (a ++ b) = (lookupKey k b).or (lookupKey k a) := by
  induction a with
  | nil => simp [lookupKey]
  | cons e a ih =>
    obtain ⟨k', v⟩ := e
    show (match lookupKey k (a ++ b) with
      | some w => some w
      | none => if k' = k then some v else none) = _
    rw [ih]
    show _ = (lookupKey k b).or (match lookupKey k a with
      | some w => some w
      | none => if k' = k then some v else none)
    cases lookupKey k b <;> cases lookupKey k a <;> simp

theorem lookupKey_emit (k k' : String) (v : Yaml) :
    lookupKey k (emit k' v) = if k' = k then some v else none := by
  simp [emit, lookupKey]

theorem lookupKey_emitUnless (k k' : String) (z : Bool) (v : Yaml) :
    lookupKey k (emitUnless z k' v) = if k' = k then (if z = true then none else some v) else none := by
  cases z <;> simp [emitUnless, lookupKey]

theorem lookupKey_emitPtr {α : Type} (k k' : String) (enc : α → Yaml) (p : Option α) :
    lookupKey k (emitPtr k' enc p) = if k' = k then p.map enc else none := by
  cases p <;> simp [emitPtr, lookupKey]

theorem andThen_some {α β : Type} (a : α) (f : α → Option β) : andThen (some a) f = f a := rfl

theorem fieldOf_omitStr (s : String) :
    fieldOf decStr "" (if decide (s = "") = true then none else some (Yaml.str s)) = some s := by
  by_cases h : s = "" <;> simp [h, fieldOf, decStr]

theorem fieldOf_omitInt (i : Int) :
    fieldOf decInt 0 (if decide (i = 0) = true then none else some (Yaml.int i)) = some i := by
  by_cases h : i = 0 <;> simp [h, fieldOf, decInt]

theorem fieldOf_omitBool (b : Bool) :
    fieldOf decBool false (if (!b) = true then none else some (Yaml.bool b)) = some b := by
  cases b <;> simp [fieldOf, decBool]

theorem decodeAll_map {α : Type} (d : Yaml → Option α) (e : α → Yaml)
    (h : ∀ x, d (e x) = some x) (xs : List α) : decodeAll d (xs.map e) = some xs := by
  induction xs with
  | nil => rfl
  | cons x xs ih =>
    show (match d (e x) with
      | none => none
      | some y =>
        match decodeAll d (xs.map e) with
        | none => none
        | some ys => some (y :: ys)) = some (x :: xs)
    rw [h, ih]

theorem fieldOf_omitSeq {α : Type} (d : Yaml → Option α) (e : α → Yaml)
    (h : ∀ x, d (e x) = some x) (xs : List α) :
    fieldOf (decSeq d) [] (if xs.isEmpty = true then none else some (Yaml.seq (xs.map e)))
      = some xs := by
  cases xs with
  | nil => simp [fieldOf]
  | cons x xs =>
    have h2 := decodeAll_map d e h (x :: xs)
    simpa [fieldOf, decSeq] using h2

theorem decodeAll_decAny (xs : List Yaml) : decodeAll decAny xs = some xs := by
  have h := decodeAll_map decAny id (fun _ => rfl) xs
  rwa [List.map_id] at h

theorem fieldOf_omitAny (xs : List Yaml) :
    fieldOf (decSeq decAny) [] (if xs.isEmpty = true then none else some (Yaml.seq xs))
      = some xs := by
  cases xs with
  | nil => simp [fieldOf]
  | cons x xs => simp [fieldOf, decSeq, decodeAll_decAny]

theorem decStr_str (s : String) : decStr (Yaml.str s) = some s := rfl

theorem fieldOf_some {α : Type} (d : Yaml → Option α) (zero : α) (v : Yaml) :
    fieldOf d zero (some v) = d v := rfl

theorem decBool_bool (b : Bool) : decBool (Yaml.bool b) = some b := rfl

theorem fieldOf_omitStruct {α : Type} (d : Yaml → Option α) (zero x : α) (v : Yaml) (z : Bool)
    (h1 : d v = some x) (h2 : z = true → x = zero) :
    fieldOf d zero (if z = true then none else some v) = some x := by
  cases z with
  | false => simpa [fieldOf] using h1
  | true => simp [fieldOf, h2 rfl]

theorem ptrOf_map {α : Type} (d : Yaml → Option α) (enc : α → Yaml)
    (hd : ∀ x, d (enc x) = some x) (hn : ∀ x, enc x ≠ Yaml.null) (p : Option α) :
    ptrOf d (p.map enc) = some p := by
  cases p with
  | none => rfl
  | some x =>
    have h1 := hd x
    have h2 := hn x
    simp only [Option.map_some']
    cases hx : enc x with
    | null => exact absurd hx h2
    | _ => simp [ptrOf, ← hx, h1]

theorem ptrOf_ptrNode {α : Type} (d : Yaml → Option α) (enc : α → Yaml)
    (hd : ∀ x, d (enc x) = some x) (hn : ∀ x, enc x ≠ Yaml.null) (p : Option α) :
    ptrOf d (some (ptrNode enc p)) = some p := by
  cases p with
  | none => rfl
  | some x => exact ptrOf_map d enc hd hn (some x)

theorem decSeq_seq {α : Type} (d : Yaml → Option α) (e : α → Yaml)
    (h : ∀ x, d (e x) = some x) (xs : List α) :
    decSeq d (Yaml.seq (xs.map e)) = some xs := decodeAll_map d e h xs

theorem decSeq_strSeq (xs : List String) : decSeq decStr (strSeq xs) = some xs :=
  decSeq_seq decStr Yaml.str decStr_str xs

theorem seq_ne_null {α : Type} (e : α → Yaml) (xs : List α) : Yaml.seq (xs.map e) ≠ Yaml.null :=
  fun h => Yaml.noConfusion h

theorem strSeq_ne_null (xs : List String) : strSeq xs ≠ Yaml.null :=
  fun h => Yaml.noConfusion h

theorem decodeEntries_map {α : Type} (d : Yaml → Option α) (e : α → Yaml)
    (h : ∀ x, d (e x) = some x) (m : List (String × α)) :
    decodeEntries d (m.map (fun kv => (kv.1, e kv.2))) = some m := by
  induction m with
  | nil => rfl
  | cons kv m ih =>
    show (match d (e kv.2) with
      | none => none
      | some y =>
        match decodeEntries d (m.map (fun kv => (kv.1, e kv.2))) with
        | none => none
        | some ys => some ((kv.1, y) :: ys)) = some (kv :: m)
    rw [h, ih]

theorem fieldOf_omitMap {α : Type} (d : Yaml → Option α) (e : α → Yaml)
    (h : ∀ x, d (e x) = some x) (m : List (String × α)) :
    fieldOf (decMap d) [] (if m.isEmpty = true then none
      else some (Yaml.map (m.map (fun kv => (kv.1, e kv.2))))) = some m := by
  cases m with
  | nil => simp [fieldOf]
  | cons kv m =>
    have h2 := decodeEntries_map d e h (kv :: m)
    simpa [fieldOf, decMap] using h2

theorem unmarshal_marshalServingInfo (s : ServingInfo) :
    unmarshalServingInfo (marshalServingInfo s) = some s := by
  simp only [marshalServingInfo, unmarshalServingInfo, decStruct, field, omitStr, omitInt,
    omitStrs, strSeq, lookupKey_append, lookupKey_emitUnless, String.reduceEq, if_true, if_false,
    Option.or_none, Option.none_or, fieldOf_omitStr, fieldOf_omitInt, andThen_some,
    fieldOf_omitSeq decStr Yaml.str decStr_str, fieldOf_omitAny]

theorem unmarshal_marshalProxyService (s : ProxyService) :
    unmarshalProxyService (marshalProxyService s) = some s := by
  simp only [marshalProxyService, unmarshalProxyService, decStruct, field,
    lookupKey_append, lookupKey_emit, String.reduceEq, if_true, if_false,
    Option.or_none, Option.none_or, fieldOf_some, decStr_str, decBool_bool, andThen_some]

theorem unmarshal_marshalProxy (p : Proxy) : unmarshalProxy (marshalProxy p) = some p := by
  simp only [marshalProxy, unmarshalProxy, decStruct, field, lookupKey_emitUnless,
    String.reduceEq, if_true, if_false,
    fieldOf_omitSeq unmarshalProxyService marshalProxyService unmarshal_marshalProxyService,
    andThen_some]

theorem unmarshal_marshalClusterInfo (c : ClusterInfo) :
    unmarshalClusterInfo (marshalClusterInfo c) = some c := by
  simp only [marshalClusterInfo, unmarshalClusterInfo, decStruct, field, omitStr, omitBool,
    omitStrs, strSeq, lookupKey_append, lookupKey_emitUnless, String.reduceEq, if_true, if_false,
    Option.or_none, Option.none_or, fieldOf_omitStr, fieldOf_omitBool, andThen_some,
    fieldOf_omitSeq decStr Yaml.str decStr_str]

theorem unmarshal_marshalMonitoringInfo (c : MonitoringInfo) :
    unmarshalMonitoringInfo (marshalMonitoringInfo c) = some c := by
  simp only [marshalMonitoringInfo, unmarshalMonitoringInfo, decStruct, field, omitStr,
    lookupKey_append, lookupKey_emitUnless, String.reduceEq, if_true, if_false,
    Option.or_none, Option.none_or, fieldOf_omitStr, andThen_some]

theorem unmarshal_marshalAuth (c : Auth) : unmarshalAuth (marshalAuth c) = some c := by
  simp only [marshalAuth, unmarshalAuth, decStruct, field, omitStr, omitInt,
    omitStrs, strSeq, lookupKey_append, lookupKey_emitUnless, String.reduceEq, if_true, if_false,
    Option.or_none, Option.none_or, fieldOf_omitStr, fieldOf_omitInt, andThen_some,
    fieldOf_omitSeq decStr Yaml.str decStr_str]

theorem unmarshal_marshalSession (c : Session) :
    unmarshalSession (marshalSession c) = some c := by
  simp only [marshalSession, unmarshalSession, decStruct, field, omitStr,
    lookupKey_append, lookupKey_emitUnless, String.reduceEq, if_true, if_false,
    Option.or_none, Option.none_or, fieldOf_omitStr, andThen_some]

theorem unmarshal_marshalQuickStarts (c : QuickStarts) :
    unmarshalQuickStarts (marshalQuickStarts c) = some c := by
  simp only [marshalQuickStarts, unmarshalQuickStarts, decStruct, field,
    lookupKey_emit, if_true, fieldOf_some, decSeq_strSeq, andThen_some]

theorem unmarshal_marshalProjectAccess (c : ProjectAccess) :
    unmarshalProjectAccess (marshalProjectAccess c) = some c := by
  simp only [marshalProjectAccess, unmarshalProjectAccess, decStruct, field, omitStrs, strSeq,
    lookupKey_emitUnless, if_true, andThen_some, fieldOf_omitSeq decStr Yaml.str decStr_str]

theorem unmarshal_marshalAddPage (c : AddPage) :
    unmarshalAddPage (marshalAddPage c) = some c := by
  simp only [marshalAddPage, unmarshalAddPage, decStruct, field, omitStrs, strSeq,
    lookupKey_emitUnless, if_true, andThen_some, fieldOf_omitSeq decStr Yaml.str decStr_str]

theorem unmarshal_marshalProviders (c : Providers) :
    unmarshalProviders (marshalProviders c) = some c := by
  simp only [marshalProviders, unmarshalProviders, decStruct, field, omitStr,
    lookupKey_emitUnless, if_true, andThen_some, fieldOf_omitStr]

theorem unmarshal_marshalCatalogTypes (c : DeveloperConsoleCatalogTypes) :
    unmarshalCatalogTypes (marshalCatalogTypes c) = some c := by
  simp only [marshalCatalogTypes, unmarshalCatalogTypes, decStruct, field, ptrField, omitStr,
    lookupKey_append, lookupKey_emitUnless, lookupKey_emitPtr, String.reduceEq, if_true,
    if_false, Option.or_none, Option.none_or, fieldOf_omitStr, andThen_some,
    ptrOf_map (decSeq decStr) strSeq decSeq_strSeq strSeq_ne_null]

theorem categoryMetaOfFields_append (m : DeveloperConsoleCatalogCategoryMeta) (k : String)
    (z : Bool) (v : Yaml) (hk : k ≠ "id" ∧ k ≠ "label" ∧ k ≠ "tags") :
    categoryMetaOfFields (categoryMetaFields m ++ emitUnless z k v) = some m := by
  obtain ⟨h1, h2, h3⟩ := hk
  simp only [categoryMetaOfFields, categoryMetaFields, field, omitStrs, strSeq,
    lookupKey_append, lookupKey_emit, lookupKey_emitUnless, String.reduceEq, if_true, if_false,
    h1, h2, h3, Option.or_none, Option.none_or, fieldOf_some, decStr_str, andThen_some,
    fieldOf_omitSeq decStr Yaml.str decStr_str]

theorem unmarshal_marshalCategoryMeta (m : DeveloperConsoleCatalogCategoryMeta) :
    unmarshalCategoryMeta (marshalCategoryMeta m) = some m := by
  simp only [marshalCategoryMeta, unmarshalCategoryMeta, decStruct,
    categoryMetaOfFields, categoryMetaFields, field, omitStrs, strSeq,
    lookupKey_append, lookupKey_emit, lookupKey_emitUnless, String.reduceEq, if_true, if_false,
    Option.or_none, Option.none_or, fieldOf_some, decStr_str, andThen_some,
    fieldOf_omitSeq decStr Yaml.str decStr_str]

theorem unmarshal_marshalCategory (c : DeveloperConsoleCatalogCategory) :
    unmarshalCategory (marshalCategory c) = some c := by
  simp only [marshalCategory, unmarshalCategory, decStruct]
  rw [categoryMetaOfFields_append _ _ _ _ (by decide)]
  simp only [categoryMetaFields, field, omitStrs, strSeq,
    lookupKey_append, lookupKey_emit, lookupKey_emitUnless, String.reduceEq, if_true, if_false,
    Option.or_none, Option.none_or, andThen_some,
    fieldOf_omitSeq unmarshalCategoryMeta marshalCategoryMeta unmarshal_marshalCategoryMeta]

theorem unmarshal_marshalDeveloperCatalog (c : DeveloperConsoleCatalogCustomization) :
    unmarshalDeveloperCatalog (marshalDeveloperCatalog c) = some c := by
  simp only [marshalDeveloperCatalog, unmarshalDeveloperCatalog, decStruct, field, ptrField,
    lookupKey_append, lookupKey_emit, String.reduceEq, if_true, if_false,
    Option.or_none, Option.none_or, fieldOf_some, andThen_some, unmarshal_marshalCatalogTypes,
    ptrOf_ptrNode (decSeq unmarshalCategory) (fun cs => Yaml.seq (cs.map marshalCategory))
      (decSeq_seq unmarshalCategory marshalCategory unmarshal_marshalCategory)
      (seq_ne_null marshalCategory)]

theorem map_ne_null (fs : Fields) : Yaml.map fs ≠ Yaml.null := fun h => Yaml.noConfusion h

theorem projectAccess_eq_zero_of_isZero (p : ProjectAccess) (h : p.isZero = true) : p = {} := by
  obtain ⟨l⟩ := p
  cases l with
  | nil => rfl
  | cons x xs => simp [ProjectAccess.isZero] at h

theorem quickStarts_eq_zero_of_isZero (p : QuickStarts) (h : p.isZero = true) : p = {} := by
  obtain ⟨l⟩ := p
  cases l with
  | nil => rfl
  | cons x xs => simp [QuickStarts.isZero] at h

theorem addPage_eq_zero_of_isZero (p : AddPage) (h : p.isZero = true) : p = {} := by
  obtain ⟨l⟩ := p
  cases l with
  | nil => rfl
  | cons x xs => simp [AddPage.isZero] at h

theorem proxy_eq_zero_of_isZero (p : Proxy) (h : p.isZero = true) : p = {} := by
  obtain ⟨l⟩ := p
  cases l with
  | nil => rfl
  | cons x xs => simp [Proxy.isZero] at h

theorem monitoringInfo_eq_zero_of_isZero (p : MonitoringInfo) (h : p.isZero = true) :
    p = {} := by
  obtain ⟨a, b⟩ := p
  simp only [MonitoringInfo.isZero, Bool.and_eq_true, decide_eq_true_eq] at h
  obtain ⟨h1, h2⟩ := h
  subst h1 h2
  rfl

section Ext

variable {RA PR Cap : Type}

theorem unmarshal_marshalAccessReview (cs : Codec RA) (h : cs.Lawful)
    (a : ResourceAttributesAccessReview RA) :
    unmarshalAccessReview cs (marshalAccessReview cs a) = some a := by
  simp only [marshalAccessReview, unmarshalAccessReview, decStruct, field,
    lookupKey_append, lookupKey_emitUnless, String.reduceEq, if_true, if_false,
    Option.or_none, Option.none_or, andThen_some, fieldOf_omitSeq cs.dec cs.enc h]

theorem unmarshal_marshalVisibility (cs : Codec RA) (h : cs.Lawful)
    (v : PerspectiveVisibility RA) :
    unmarshalVisibility cs (marshalVisibility cs v) = some v := by
  simp only [marshalVisibility, unmarshalVisibility, decStruct, field, ptrField,
    lookupKey_append, lookupKey_emit, lookupKey_emitPtr, String.reduceEq, if_true, if_false,
    Option.or_none, Option.none_or, fieldOf_some, decStr_str, andThen_some,
    ptrOf_map (unmarshalAccessReview cs) (marshalAccessReview cs)
      (unmarshal_marshalAccessReview cs h) (fun _ => map_ne_null _)]

theorem unmarshal_marshalPerspective (cs : ExtCodecs RA PR Cap) (hra : cs.ra.Lawful)
    (hpr : cs.pr.Lawful) (p : Perspective RA PR) :
    unmarshalPerspective cs (marshalPerspective cs p) = some p := by
  simp only [marshalPerspective, unmarshalPerspective, decStruct, field, ptrField,
    lookupKey_append, lookupKey_emit, lookupKey_emitPtr, String.reduceEq, if_true, if_false,
    Option.or_none, Option.none_or, fieldOf_some, decStr_str, andThen_some,
    unmarshal_marshalVisibility cs.ra hra,
    ptrOf_map (decSeq cs.pr.dec) (fun rs => Yaml.seq (rs.map cs.pr.enc))
      (decSeq_seq cs.pr.dec cs.pr.enc hpr) (seq_ne_null cs.pr.enc)]

theorem unmarshal_marshalCustomization (cs : ExtCodecs RA PR Cap) (hra : cs.ra.Lawful)
    (hpr : cs.pr.Lawful) (hcap : cs.cap.Lawful) (c : Customization RA PR Cap) :
    unmarshalCustomization cs (marshalCustomization cs c) = some c := by
  simp only [marshalCustomization, unmarshalCustomization, decStruct, field, ptrField, omitStr,
    lookupKey_append, lookupKey_emitUnless, lookupKey_emitPtr, String.reduceEq, if_true,
    if_false, Option.or_none, Option.none_or, andThen_some, fieldOf_omitStr,
    ptrOf_map unmarshalDeveloperCatalog marshalDeveloperCatalog unmarshal_marshalDeveloperCatalog
      (fun _ => map_ne_null _),
    fieldOf_omitStruct unmarshalProjectAccess {} c.ProjectAccess _ _
      (unmarshal_marshalProjectAccess _) (projectAccess_eq_zero_of_isZero _),
    fieldOf_omitStruct unmarshalQuickStarts {} c.QuickStarts _ _
      (unmarshal_marshalQuickStarts _) (quickStarts_eq_zero_of_isZero _),
    fieldOf_omitStruct unmarshalAddPage {} c.AddPage _ _
      (unmarshal_marshalAddPage _) (addPage_eq_zero_of_isZero _),
    fieldOf_omitSeq (unmarshalPerspective cs) (marshalPerspective cs)
      (unmarshal_marshalPerspective cs hra hpr),
    fieldOf_omitSeq cs.cap.dec cs.cap.enc hcap]

theorem unmarshal_marshalConfig (cs : ExtCodecs RA PR Cap) (hra : cs.ra.Lawful)
    (hpr : cs.pr.Lawful) (hcap : cs.cap.Lawful) (c : Config RA PR Cap) :
    unmarshalConfig cs (marshalConfig cs c) = some c := by
  simp only [marshalConfig, unmarshalConfig, decStruct, field, omitStrs, strSeq, strMap,
    marshalCSP, lookupKey_append, lookupKey_emit, lookupKey_emitUnless, String.reduceEq, if_true,
    if_false, Option.or_none, Option.none_or, andThen_some, fieldOf_some, decStr_str,
    unmarshal_marshalServingInfo, unmarshal_marshalClusterInfo, unmarshal_marshalAuth,
    unmarshal_marshalSession, unmarshal_marshalCustomization cs hra hpr hcap,
    unmarshal_marshalProviders,
    fieldOf_omitStruct unmarshalMonitoringInfo {} c.MonitoringInfo _ _
      (unmarshal_marshalMonitoringInfo _) (monitoringInfo_eq_zero_of_isZero _),
    fieldOf_omitStruct unmarshalProxy {} c.Proxy _ _
      (unmarshal_marshalProxy _) (proxy_eq_zero_of_isZero _),
    fieldOf_omitMap decStr Yaml.str decStr_str,
    fieldOf_omitMap (decSeq decStr) (fun xs => Yaml.seq (xs.map Yaml.str))
      (decSeq_seq decStr Yaml.str decStr_str),
    fieldOf_omitSeq decStr Yaml.str decStr_str]

end Ext

/-! ## Field emission -/

section Emission

variable {RA PR Cap : Type}

theorem child_marshalConfig_customization (cs : ExtCodecs RA PR Cap) (c : Config RA PR Cap) :
    (marshalConfig cs c).child "customization" = some (marshalCustomization cs c.Customization) := by
  simp only [marshalConfig, Yaml.child, omitStrs, lookupKey_append, lookupKey_emit,
    lookupKey_emitUnless, String.reduceEq, if_true, if_false, Option.or_none, Option.none_or]

/-- C1 (code evaluated at the failing input): the zero `Config` is written as a
document in which `servingInfo`, `clusterInfo`, `auth`, `customization` and
`providers` are empty mappings, so none of the baseline keys below them is
emitted; in particular `servingInfo.bindAddress` is absent. -/
theorem C1_zero_config_omits_baseline_keys (cs : ExtCodecs RA PR Cap) :
    marshalConfig cs ({} : Config RA PR Cap)
      = Yaml.map [("apiVersion", Yaml.str ""), ("kind", Yaml.str ""),
          ("servingInfo", Yaml.map []), ("clusterInfo", Yaml.map []), ("auth", Yaml.map []),
          ("session", Yaml.map []), ("customization", Yaml.map []),
          ("providers", Yaml.map [])]
    ∧ (marshalConfig cs ({} : Config RA PR Cap)).hasKey ["servingInfo", "bindAddress"] = false
    ∧ (marshalConfig cs ({} : Config RA PR Cap)).hasKey ["servingInfo", "redirectPort"] = false
    ∧ (marshalConfig cs ({} : Config RA PR Cap)).hasKey ["clusterInfo", "masterPublicURL"] = false
    ∧ (marshalConfig cs ({} : Config RA PR Cap)).hasKey ["auth", "clientID"] = false
    ∧ (marshalConfig cs ({} : Config RA PR Cap)).hasKey ["customization", "branding"] = false
    ∧ (marshalConfig cs ({} : Config RA PR Cap)).hasKey ["providers", "statuspageID"] = false := by
  have hdoc : marshalConfig cs ({} : Config RA PR Cap)
      = Yaml.map [("apiVersion", Yaml.str ""), ("kind", Yaml.str ""),
          ("servingInfo", Yaml.map []), ("clusterInfo", Yaml.map []), ("auth", Yaml.map []),
          ("session", Yaml.map []), ("customization", Yaml.map []),
          ("providers", Yaml.map [])] := rfl
  refine ⟨hdoc, ?_, ?_, ?_, ?_, ?_, ?_⟩ <;> rw [hdoc] <;> rfl

/-- C2: for every `Config`, a post-baseline field at its zero or empty value has
no key in the document: `monitoringInfo`, `plugins`, `i18nNamespaces`, `proxy`,
`contentSecurityPolicy`, `telemetry` at the top level, `developerCatalog`,
`addPage`, `perspectives`, `capabilities` under `customization`, and
`availableClusterRoles` under `projectAccess` (the whole `projectAccess` key is
absent then). -/
theorem C2_post_baseline_fields_omitted_when_zero (cs : ExtCodecs RA PR Cap) (c : Config RA PR Cap) :
    (c.MonitoringInfo = {} → (marshalConfig cs c).hasKey ["monitoringInfo"] = false)
    ∧ (c.Plugins = [] → (marshalConfig cs c).hasKey ["plugins"] = false)
    ∧ (c.I18nNamespaces = [] → (marshalConfig cs c).hasKey ["i18nNamespaces"] = false)
    ∧ (c.Proxy.Services = [] → (marshalConfig cs c).hasKey ["proxy"] = false)
    ∧ (c.ContentSecurityPolicy = [] →
        (marshalConfig cs c).hasKey ["contentSecurityPolicy"] = false)
    ∧ (c.Telemetry = [] → (marshalConfig cs c).hasKey ["telemetry"] = false)
    ∧ (c.Customization.DeveloperCatalog = none →
        (marshalConfig cs c).hasKey ["customization", "developerCatalog"] = false)
    ∧ (c.Customization.AddPage.DisabledActions = [] →
        (marshalConfig cs c).hasKey ["customization", "addPage"] = false)
    ∧ (c.Customization.Perspectives = [] →
        (marshalConfig cs c).hasKey ["customization", "perspectives"] = false)
    ∧ (c.Customization.Capabilities = [] →
        (marshalConfig cs c).hasKey ["customization", "capabilities"] = false)
    ∧ (c.Customization.ProjectAccess.AvailableClusterRoles = [] →
        (marshalConfig cs c).hasKey ["customization", "projectAccess"] = false
        ∧ (marshalConfig cs c).hasKey
            ["customization", "projectAccess", "availableClusterRoles"] = false) := by
  refine ⟨?_, ?_, ?_, ?_, ?_, ?_, ?_, ?_, ?_, ?_, ?_⟩
  all_goals intro h
  all_goals
    simp only [Yaml.hasKey, Yaml.path, child_marshalConfig_customization]
  all_goals
    simp only [marshalConfig, marshalCustomization, Yaml.child, omitStrs, omitStr,
      lookupKey_append, lookupKey_emit, lookupKey_emitPtr,
      lookupKey_emitUnless, String.reduceEq, if_true, if_false, Option.or_none, Option.none_or,
      h, MonitoringInfo.isZero, Proxy.isZero, AddPage.isZero, ProjectAccess.isZero,
      List.isEmpty_nil, Option.map_none', decide_True, Bool.and_self, Option.isSome_none, and_self]

/-- C2 at a configuration that sets baseline fields only: none of the
post-baseline keys is written. -/
theorem C2_post_baseline_fields_omitted_witness :
    (marshalConfig strCodecs baselineOnlyConfig).hasKey ["monitoringInfo"] = false
    ∧ (marshalConfig strCodecs baselineOnlyConfig).hasKey ["plugins"] = false
    ∧ (marshalConfig strCodecs baselineOnlyConfig).hasKey ["i18nNamespaces"] = false
    ∧ (marshalConfig strCodecs baselineOnlyConfig).hasKey ["proxy"] = false
    ∧ (marshalConfig strCodecs baselineOnlyConfig).hasKey ["contentSecurityPolicy"] = false
    ∧ (marshalConfig strCodecs baselineOnlyConfig).hasKey ["telemetry"] = false
    ∧ (marshalConfig strCodecs baselineOnlyConfig).hasKey
        ["customization", "developerCatalog"] = false
    ∧ (marshalConfig strCodecs baselineOnlyConfig).hasKey ["customization", "addPage"] = false
    ∧ (marshalConfig strCodecs baselineOnlyConfig).hasKey
        ["customization", "perspectives"] = false
    ∧ (marshalConfig strCodecs baselineOnlyConfig).hasKey
        ["customization", "capabilities"] = false
    ∧ (marshalConfig strCodecs baselineOnlyConfig).hasKey
        ["customization", "projectAccess", "availableClusterRoles"] = false :=
  have h := C2_post_baseline_fields_omitted_when_zero strCodecs baselineOnlyConfig
  ⟨h.1 rfl, h.2.1 rfl, h.2.2.1 rfl, h.2.2.2.1 rfl, h.2.2.2.2.1 rfl, h.2.2.2.2.2.1 rfl,
    h.2.2.2.2.2.2.1 rfl, h.2.2.2.2.2.2.2.1 rfl, h.2.2.2.2.2.2.2.2.1 rfl,
    h.2.2.2.2.2.2.2.2.2.1 rfl, (h.2.2.2.2.2.2.2.2.2.2 rfl).2⟩

end Emission

/-! ## Perspective visibility -/

section Persp

variable {RA PR : Type}

theorem any_error_iff (oracle : RA → OracleResult) (xs : List RA) :
    (xs.map oracle).any (fun r => decide (r = OracleResult.Error)) = true
      ↔ ∃ x ∈ xs, oracle x = OracleResult.Error := by
  simp

/-- C3: for every perspective and every oracle (also one that always errors),
resolution yields Shown when the state is Enabled and Hidden when it is
Disabled, whatever the oracle and the `AccessReview` field are. -/
theorem C3_enabled_disabled_ignore_oracle (p : Perspective RA PR) (oracle : RA → OracleResult)
    (h : p.Visibility.State = PerspectiveEnabled ∨ p.Visibility.State = PerspectiveDisabled) :
    ResolvePerspectiveVisibility p oracle
        = Except.ok (if p.Visibility.State = PerspectiveEnabled then PerspectiveResolution.Shown
            else PerspectiveResolution.Hidden)
    ∧ ∀ (oracle2 : RA → OracleResult) (ar : Option (ResourceAttributesAccessReview RA)),
        ResolvePerspectiveVisibility
            { p with Visibility := { p.Visibility with AccessReview := ar } } oracle2
          = ResolvePerspectiveVisibility p oracle := by
  have key : ∀ (q : Perspective RA PR) (o : RA → OracleResult),
      (q.Visibility.State = PerspectiveEnabled ∨ q.Visibility.State = PerspectiveDisabled) →
      ResolvePerspectiveVisibility q o
        = Except.ok (if q.Visibility.State = PerspectiveEnabled then PerspectiveResolution.Shown
            else PerspectiveResolution.Hidden) := by
    intro q o hq
    rcases hq with hq | hq
    · simp [ResolvePerspectiveVisibility, hq]
    · have hne : ¬ (PerspectiveDisabled = PerspectiveEnabled) := by decide
      simp [ResolvePerspectiveVisibility, hq, hne]
  refine ⟨key p oracle h, fun oracle2 ar => ?_⟩
  exact (key { p with Visibility := { p.Visibility with AccessReview := ar } } oracle2 h).trans
    (key p oracle h).symm

/-- C3 at a perspective with state Enabled that carries checks, resolved with
an oracle that always errors. -/
theorem C3_enabled_disabled_witness :
    ResolvePerspectiveVisibility enabledPerspective failingOracle
      = Except.ok PerspectiveResolution.Shown :=
  (C3_enabled_disabled_ignore_oracle enabledPerspective failingOracle (Or.inl rfl)).1

/-- C4: for a perspective with state AccessReview whose Required and Missing
lists are not both empty and an oracle that answers every check without error,
resolution succeeds, and the perspective is Shown iff every Required check is
Permitted and (Missing is empty or some Missing check is Denied). -/
theorem C4_access_review_shown_iff (p : Perspective RA PR) (oracle : RA → OracleResult)
    (ar : ResourceAttributesAccessReview RA)
    (hs : p.Visibility.State = PerspectiveAccessReview)
    (har : p.Visibility.AccessReview = some ar)
    (hne : ¬ (ar.Required = [] ∧ ar.Missing = []))
    (hor : ∀ x ∈ ar.Required ++ ar.Missing, oracle x ≠ OracleResult.Error) :
    (ResolvePerspectiveVisibility p oracle = Except.ok PerspectiveResolution.Shown
      ↔ (∀ r ∈ ar.Required, oracle r = OracleResult.Permitted)
        ∧ (ar.Missing = [] ∨ ∃ m ∈ ar.Missing, oracle m = OracleResult.Denied))
    ∧ (ResolvePerspectiveVisibility p oracle = Except.ok PerspectiveResolution.Shown
      ∨ ResolvePerspectiveVisibility p oracle = Except.ok PerspectiveResolution.Hidden) := by
  have h1 : ¬ (PerspectiveAccessReview = PerspectiveEnabled) := by decide
  have h2 : ¬ (PerspectiveAccessReview = PerspectiveDisabled) := by decide
  have hempty : (ar.Required.isEmpty && ar.Missing.isEmpty) = false := by
    rcases hr : ar.Required with _ | ⟨a, l⟩
    · rcases hm : ar.Missing with _ | ⟨b, l⟩
      · exact absurd ⟨hr, hm⟩ hne
      · rfl
    · rfl
  have herr : ((ar.Required.map oracle ++ ar.Missing.map oracle).any
      (fun r => decide (r = OracleResult.Error))) = false := by
    rw [Bool.eq_false_iff]
    intro hc
    rw [← List.map_append, any_error_iff] at hc
    obtain ⟨x, hx, hxe⟩ := hc
    exact hor x hx hxe
  unfold ResolvePerspectiveVisibility
  simp only [hs, h1, h2, if_false, if_true, har, hempty, herr, Bool.false_eq_true]
  by_cases hc : ((ar.Required.map oracle).all (fun r => decide (r = OracleResult.Permitted))
      && ((ar.Missing.map oracle).isEmpty
        || (ar.Missing.map oracle).any (fun r => decide (r = OracleResult.Denied)))) = true
  · rw [if_pos hc]
    refine ⟨⟨fun _ => ?_, fun _ => rfl⟩, Or.inl rfl⟩
    simpa [List.isEmpty_iff] using hc
  · rw [if_neg hc]
    refine ⟨⟨fun h => (by cases h), fun h => ?_⟩, Or.inr rfl⟩
    exact absurd (by simpa [List.isEmpty_iff] using h) hc

/-- C4 at Required = [A, B], Missing = [] with an oracle that permits both. -/
theorem C4_access_review_witness :
    (ResolvePerspectiveVisibility reviewedPerspective permissiveOracle
        = Except.ok PerspectiveResolution.Shown
      ↔ (∀ r ∈ ["A", "B"], permissiveOracle r = OracleResult.Permitted)
        ∧ (([] : List String) = [] ∨ ∃ m ∈ ([] : List String),
            permissiveOracle m = OracleResult.Denied))
    ∧ (ResolvePerspectiveVisibility reviewedPerspective permissiveOracle
        = Except.ok PerspectiveResolution.Shown
      ∨ ResolvePerspectiveVisibility reviewedPerspective permissiveOracle
        = Except.ok PerspectiveResolution.Hidden) :=
  C4_access_review_shown_iff reviewedPerspective permissiveOracle
    { Required := ["A", "B"], Missing := [] } rfl rfl (by decide)
    (fun _ _ h => OracleResult.noConfusion h)

/-- C5: a perspective with state AccessReview whose `AccessReview` is absent, or
whose Required and Missing lists are both empty, resolves to Hidden for every
oracle, without error. -/
theorem C5_access_review_without_checks_hidden (p : Perspective RA PR) (oracle : RA → OracleResult)
    (hs : p.Visibility.State = PerspectiveAccessReview)
    (har : p.Visibility.AccessReview = none
      ∨ ∃ ar, p.Visibility.AccessReview = some ar ∧ ar.Required = [] ∧ ar.Missing = []) :
    ResolvePerspectiveVisibility p oracle = Except.ok PerspectiveResolution.Hidden := by
  have h1 : ¬ (PerspectiveAccessReview = PerspectiveEnabled) := by decide
  have h2 : ¬ (PerspectiveAccessReview = PerspectiveDisabled) := by decide
  unfold ResolvePerspectiveVisibility
  rcases har with har | ⟨ar, har, hr, hm⟩
  · simp [hs, h1, h2, har]
  · simp [hs, h1, h2, har, hr, hm]

/-- C5 at a perspective without checks, resolved with an oracle that always
errors. -/
theorem C5_access_review_without_checks_witness :
    ResolvePerspectiveVisibility uncheckedPerspective failingOracle
      = Except.ok PerspectiveResolution.Hidden :=
  C5_access_review_without_checks_hidden uncheckedPerspective failingOracle rfl
    (Or.inr ⟨{}, rfl, rfl, rfl⟩)

end Persp

/-! ## Proxy services and serving info -/

theorem hasPathCollision_iff (s : List ProxyService) :
    hasPathCollision s = true
      ↔ ∃ i j : Fin s.length, i ≠ j ∧ (s.get i).ConsoleAPIPath = (s.get j).ConsoleAPIPath := by
  induction s with
  | nil =>
    simp only [hasPathCollision, Bool.false_eq_true, false_iff]
    rintro ⟨i, -⟩
    exact i.elim0
  | cons a rest ih =>
    simp only [hasPathCollision, Bool.or_eq_true, List.any_eq_true, decide_eq_true_eq, ih]
    constructor
    · rintro (⟨t, ht, hp⟩ | ⟨i, j, hij, hp⟩)
      · obtain ⟨n, hn, rfl⟩ := List.getElem_of_mem ht
        refine ⟨⟨n + 1, by simpa using hn⟩, ⟨0, by simp⟩, by simp [Fin.ext_iff], ?_⟩
        simpa using hp
      · refine ⟨i.succ, j.succ, ?_, ?_⟩
        · intro h
          exact hij (Fin.succ_injective _ h)
        · simpa using hp
    · rintro ⟨i, j, hij, hp⟩
      rcases i with ⟨i, hi⟩
      rcases j with ⟨j, hj⟩
      cases i with
      | zero =>
        cases j with
        | zero => exact absurd rfl hij
        | succ j =>
          left
          have hj2 : j < rest.length := by simpa using hj
          refine ⟨rest[j], List.getElem_mem _, ?_⟩
          simpa using hp.symm
      | succ i =>
        cases j with
        | zero =>
          left
          have hi2 : i < rest.length := by simpa using hi
          refine ⟨rest[i], List.getElem_mem _, ?_⟩
          simpa using hp
        | succ j =>
          right
          have hi2 : i < rest.length := by simpa using hi
          have hj2 : j < rest.length := by simpa using hj
          refine ⟨⟨i, hi2⟩, ⟨j, hj2⟩, ?_, ?_⟩
          · intro h
            apply hij
            simp only [Fin.mk.injEq] at h ⊢
            omega
          · simpa using hp

/-- C6: `ResolveProxyServices` fails with the validation error iff two entries
at different positions have equal `ConsoleAPIPath`, and otherwise returns the
input list unchanged. -/
theorem C6_proxy_services_collision_iff (services : List ProxyService) :
    (ResolveProxyServices services = Except.error ResolveError.ValidationError
      ↔ ∃ i j : Fin services.length,
          i ≠ j ∧ (services.get i).ConsoleAPIPath = (services.get j).ConsoleAPIPath)
    ∧ (ResolveProxyServices services = Except.ok services
      ↔ ¬ ∃ i j : Fin services.length,
          i ≠ j ∧ (services.get i).ConsoleAPIPath = (services.get j).ConsoleAPIPath)
    ∧ (∀ out, ResolveProxyServices services = Except.ok out → out = services) := by
  rw [← hasPathCollision_iff]
  unfold ResolveProxyServices
  cases hasPathCollision services <;> simp

/-- C7: `ValidateServingInfo` fails iff at least one unsupported field is
non-zero or non-empty, succeeds otherwise, and its result does not depend on
`BindAddress`, `CertFile`, `KeyFile` and `RedirectPort`. -/
theorem C7_validate_serving_info_iff (info : ServingInfo) :
    ((∃ e, ValidateServingInfo info = Except.error e)
      ↔ (info.BindNetwork ≠ "" ∨ info.ClientCA ≠ "" ∨ info.NamedCertificates ≠ []
          ∨ info.MinTLSVersion ≠ "" ∨ info.CipherSuites ≠ []
          ∨ info.MaxRequestsInFlight ≠ 0 ∨ info.RequestTimeoutSeconds ≠ 0))
    ∧ ((ValidateServingInfo info = Except.ok ())
      ↔ ¬ (info.BindNetwork ≠ "" ∨ info.ClientCA ≠ "" ∨ info.NamedCertificates ≠ []
          ∨ info.MinTLSVersion ≠ "" ∨ info.CipherSuites ≠ []
          ∨ info.MaxRequestsInFlight ≠ 0 ∨ info.RequestTimeoutSeconds ≠ 0))
    ∧ ∀ (bindAddress certFile keyFile : String) (redirectPort : Int),
        ValidateServingInfo { info with BindAddress := bindAddress, CertFile := certFile,
                                        KeyFile := keyFile, RedirectPort := redirectPort }
          = ValidateServingInfo info := by
  refine ⟨?_, ?_, fun _ _ _ _ => rfl⟩
  · unfold ValidateServingInfo
    by_cases h1 : info.BindNetwork = "" <;> by_cases h2 : info.ClientCA = ""
      <;> by_cases h3 : info.NamedCertificates = [] <;> by_cases h4 : info.MinTLSVersion = ""
      <;> by_cases h5 : info.CipherSuites = [] <;> by_cases h6 : info.MaxRequestsInFlight = 0
      <;> by_cases h7 : info.RequestTimeoutSeconds = 0
      <;> simp [h1, h2, h3, h4, h5, h6, h7]
  · unfold ValidateServingInfo
    by_cases h1 : info.BindNetwork = "" <;> by_cases h2 : info.ClientCA = ""
      <;> by_cases h3 : info.NamedCertificates = [] <;> by_cases h4 : info.MinTLSVersion = ""
      <;> by_cases h5 : info.CipherSuites = [] <;> by_cases h6 : info.MaxRequestsInFlight = 0
      <;> by_cases h7 : info.RequestTimeoutSeconds = 0
      <;> simp [h1, h2, h3, h4, h5, h6, h7]

/-! ## Catalog types -/

theorem mem_collapseFrom (seen xs : List String) (x : String) :
    x ∈ collapseFrom seen xs ↔ x ∈ xs ∧ x ∉ seen := by
  induction xs generalizing seen with
  | nil => simp [collapseFrom]
  | cons a t ih =>
    unfold collapseFrom
    by_cases ha : a ∈ seen
    · rw [if_pos ha, ih]
      constructor
      · rintro ⟨h1, h2⟩
        exact ⟨List.mem_cons_of_mem _ h1, h2⟩
      · rintro ⟨h1, h2⟩
        rcases List.mem_cons.mp h1 with rfl | h
        · exact absurd ha h2
        · exact ⟨h, h2⟩
    · rw [if_neg ha, List.mem_cons, ih]
      constructor
      · rintro (rfl | ⟨h1, h2⟩)
        · exact ⟨List.mem_cons_self _ _, ha⟩
        · exact ⟨List.mem_cons_of_mem _ h1, fun h => h2 (List.mem_cons_of_mem _ h)⟩
      · rintro ⟨h1, h2⟩
        by_cases hxa : x = a
        · exact Or.inl hxa
        · right
          rcases List.mem_cons.mp h1 with h | h
          · exact absurd h hxa
          · refine ⟨h, fun h3 => ?_⟩
            rcases List.mem_cons.mp h3 with h4 | h4
            · exact hxa h4
            · exact h2 h4

theorem nodup_collapseFrom (seen xs : List String) : (collapseFrom seen xs).Nodup := by
  induction xs generalizing seen with
  | nil => simp [collapseFrom]
  | cons a t ih =>
    unfold collapseFrom
    by_cases ha : a ∈ seen
    · rw [if_pos ha]
      exact ih seen
    · rw [if_neg ha, List.nodup_cons]
      refine ⟨fun h => ?_, ih _⟩
      exact ((mem_collapseFrom _ _ _).mp h).2 (List.mem_cons_self _ _)

theorem indexOf_collapseFrom (seen xs : List String) (x y : String)
    (hx : x ∈ xs) (hy : y ∈ xs) (hxs : x ∉ seen) (hys : y ∉ seen) :
    (collapseFrom seen xs).indexOf x < (collapseFrom seen xs).indexOf y
      ↔ xs.indexOf x < xs.indexOf y := by
  induction xs generalizing seen with
  | nil => cases hx
  | cons a t ih =>
    unfold collapseFrom
    by_cases ha : a ∈ seen
    · have hxa : a ≠ x := fun h => hxs (h ▸ ha)
      have hya : a ≠ y := fun h => hys (h ▸ ha)
      have hx2 : x ∈ t := by
        rcases List.mem_cons.mp hx with h | h
        · exact absurd h.symm hxa
        · exact h
      have hy2 : y ∈ t := by
        rcases List.mem_cons.mp hy with h | h
        · exact absurd h.symm hya
        · exact h
      rw [if_pos ha, ih seen hx2 hy2 hxs hys, List.indexOf_cons_ne _ hxa,
        List.indexOf_cons_ne _ hya]
      omega
    · rw [if_neg ha]
      by_cases hxa : a = x
      · subst hxa
        by_cases hya : a = y
        · subst hya
          simp
        · rw [List.indexOf_cons_eq _ rfl, List.indexOf_cons_eq _ rfl,
            List.indexOf_cons_ne _ hya, List.indexOf_cons_ne _ hya]
          omega
      · by_cases hya : a = y
        · subst hya
          rw [List.indexOf_cons_eq _ rfl, List.indexOf_cons_eq _ rfl]
          omega
        · have hx2 : x ∈ t := by
            rcases List.mem_cons.mp hx with h | h
            · exact absurd h.symm hxa
            · exact h
          have hy2 : y ∈ t := by
            rcases List.mem_cons.mp hy with h | h
            · exact absurd h.symm hya
            · exact h
          have hxs2 : x ∉ a :: seen := by
            intro h
            rcases List.mem_cons.mp h with h | h
            · exact hxa h.symm
            · exact hxs h
          have hys2 : y ∉ a :: seen := by
            intro h
            rcases List.mem_cons.mp h with h | h
            · exact hya h.symm
            · exact hys h
          rw [List.indexOf_cons_ne _ hxa, List.indexOf_cons_ne _ hya,
            List.indexOf_cons_ne _ hxa, List.indexOf_cons_ne _ hya]
          have := ih (a :: seen) hx2 hy2 hxs2 hys2
          omega

/-- C8: with State = Enabled, a present Enabled list resolves to exactly its
elements, without duplicates and ordered by first occurrence; an absent list
resolves to "show all"; the Disabled list does not influence the result. -/
theorem C8_catalog_types_enabled (c : DeveloperConsoleCatalogCustomization)
    (hs : c.Types.State = CatalogTypeEnabled) :
    (∀ ids, c.Types.Enabled = some ids →
      ∃ r, ResolveCatalogTypes c = some (CatalogTypesResolution.only r)
        ∧ r.Nodup ∧ (∀ x, x ∈ r ↔ x ∈ ids)
        ∧ ∀ x y, x ∈ ids → y ∈ ids → (r.indexOf x < r.indexOf y ↔ ids.indexOf x < ids.indexOf y))
    ∧ (c.Types.Enabled = none → ResolveCatalogTypes c = some CatalogTypesResolution.showAll)
    ∧ (∀ d, ResolveCatalogTypes { c with Types := { c.Types with Disabled := d } }
        = ResolveCatalogTypes c) := by
  refine ⟨fun ids he => ?_, fun he => ?_, fun d => ?_⟩
  · refine ⟨collapseDuplicates ids, ?_, nodup_collapseFrom _ _, fun x => ?_, fun x y hx hy => ?_⟩
    · simp [ResolveCatalogTypes, hs, he]
    · simp [collapseDuplicates, mem_collapseFrom]
    · exact indexOf_collapseFrom [] ids x y hx hy (List.not_mem_nil _) (List.not_mem_nil _)
  · simp [ResolveCatalogTypes, hs, he]
  · simp [ResolveCatalogTypes, hs]

/-- C8 at Enabled = ["Devfile"] (with a Disabled list present): the visible set
is exactly ["Devfile"]. -/
theorem C8_catalog_types_enabled_witness :
    ResolveCatalogTypes devfileOnly = some (CatalogTypesResolution.only ["Devfile"])
    ∧ ∃ r, ResolveCatalogTypes devfileOnly = some (CatalogTypesResolution.only r)
        ∧ r.Nodup ∧ (∀ x, x ∈ r ↔ x ∈ ["Devfile"])
        ∧ ∀ x y, x ∈ ["Devfile"] → y ∈ ["Devfile"] →
            (r.indexOf x < r.indexOf y ↔ ["Devfile"].indexOf x < ["Devfile"].indexOf y) :=
  ⟨rfl, (C8_catalog_types_enabled devfileOnly rfl).1 ["Devfile"] rfl⟩

/-! ## Round trip -/

section RoundTrip

variable {RA PR Cap : Type}

/-- C9: for every `Config` (the element types declared outside the slice being
read back as written), decoding the encoded document succeeds and gives a
`Config` that agrees with the original on the baseline fields
(`ServingInfo.BindAddress`, `CertFile`, `KeyFile`, `RedirectPort`, `ClusterInfo`,
`Auth`, `Customization.Branding`, `DocumentationBaseURL`, `CustomProductName`,
`CustomLogoFile`, `Providers.StatuspageID`), and encoding the result again gives
the same document. -/
theorem C9_round_trip_baseline (cs : ExtCodecs RA PR Cap) (hra : cs.ra.Lawful)
    (hpr : cs.pr.Lawful) (hcap : cs.cap.Lawful) (c : Config RA PR Cap) :
    ∃ c2, unmarshalConfig cs (marshalConfig cs c) = some c2
      ∧ c2.ServingInfo.BindAddress = c.ServingInfo.BindAddress
      ∧ c2.ServingInfo.CertFile = c.ServingInfo.CertFile
      ∧ c2.ServingInfo.KeyFile = c.ServingInfo.KeyFile
      ∧ c2.ServingInfo.RedirectPort = c.ServingInfo.RedirectPort
      ∧ c2.ClusterInfo = c.ClusterInfo
      ∧ c2.Auth = c.Auth
      ∧ c2.Customization.Branding = c.Customization.Branding
      ∧ c2.Customization.DocumentationBaseURL = c.Customization.DocumentationBaseURL
      ∧ c2.Customization.CustomProductName = c.Customization.CustomProductName
      ∧ c2.Customization.CustomLogoFile = c.Customization.CustomLogoFile
      ∧ c2.Providers.StatuspageID = c.Providers.StatuspageID
      ∧ marshalConfig cs c2 = marshalConfig cs c :=
  ⟨c, unmarshal_marshalConfig cs hra hpr hcap c, rfl, rfl, rfl, rfl, rfl, rfl, rfl, rfl, rfl,
    rfl, rfl, rfl⟩

/-- C9 at a configuration with perspectives, plugins and proxy services. -/
theorem C9_round_trip_witness :
    ∃ c2, unmarshalConfig strCodecs (marshalConfig strCodecs populatedConfig) = some c2
      ∧ c2.ServingInfo.BindAddress = populatedConfig.ServingInfo.BindAddress
      ∧ c2.ServingInfo.CertFile = populatedConfig.ServingInfo.CertFile
      ∧ c2.ServingInfo.KeyFile = populatedConfig.ServingInfo.KeyFile
      ∧ c2.ServingInfo.RedirectPort = populatedConfig.ServingInfo.RedirectPort
      ∧ c2.ClusterInfo = populatedConfig.ClusterInfo
      ∧ c2.Auth = populatedConfig.Auth
      ∧ c2.Customization.Branding = populatedConfig.Customization.Branding
      ∧ c2.Customization.DocumentationBaseURL
          = populatedConfig.Customization.DocumentationBaseURL
      ∧ c2.Customization.CustomProductName = populatedConfig.Customization.CustomProductName
      ∧ c2.Customization.CustomLogoFile = populatedConfig.Customization.CustomLogoFile
      ∧ c2.Providers.StatuspageID = populatedConfig.Providers.StatuspageID
      ∧ marshalConfig strCodecs c2 = marshalConfig strCodecs populatedConfig :=
  C9_round_trip_baseline strCodecs (fun _ => rfl) (fun _ => rfl) (fun _ => rfl) populatedConfig

end RoundTrip

/-! ## Optional pointers to slices -/

/-- C16: for every `DeveloperConsoleCatalogTypes` the encoding keeps "omitted"
and "present but empty" apart: with a nil `Enabled` (resp. `Disabled`) pointer
the key `enabled` (resp. `disabled`) is absent, with a pointer to an empty list
the key is written with an empty sequence, and decoding the document gives
back the same pointers (nil, resp. non-nil and empty). -/
theorem C16_catalog_types_nil_versus_empty (t : DeveloperConsoleCatalogTypes) :
    (t.Enabled = none → (marshalCatalogTypes t).hasKey ["enabled"] = false)
    ∧ (t.Enabled = some [] → (marshalCatalogTypes t).child "enabled" = some (Yaml.seq []))
    ∧ (t.Disabled = none → (marshalCatalogTypes t).hasKey ["disabled"] = false)
    ∧ (t.Disabled = some [] → (marshalCatalogTypes t).child "disabled" = some (Yaml.seq []))
    ∧ ∃ t2, unmarshalCatalogTypes (marshalCatalogTypes t) = some t2
        ∧ t2.Enabled = t.Enabled ∧ t2.Disabled = t.Disabled := by
  have he : (marshalCatalogTypes t).child "enabled" = t.Enabled.map strSeq := by
    simp only [marshalCatalogTypes, Yaml.child, omitStr, lookupKey_append, lookupKey_emitUnless,
      lookupKey_emitPtr, String.reduceEq, if_true, if_false, Option.or_none, Option.none_or]
  have hd : (marshalCatalogTypes t).child "disabled" = t.Disabled.map strSeq := by
    simp only [marshalCatalogTypes, Yaml.child, omitStr, lookupKey_append, lookupKey_emitUnless,
      lookupKey_emitPtr, String.reduceEq, if_true, if_false, Option.or_none, Option.none_or]
  refine ⟨fun h => ?_, fun h => ?_, fun h => ?_, fun h => ?_,
    ⟨t, unmarshal_marshalCatalogTypes t, rfl, rfl⟩⟩
  · simp only [Yaml.hasKey, Yaml.path, he, h, Option.map_none', Option.isSome_none]
  · rw [he, h]
    rfl
  · simp only [Yaml.hasKey, Yaml.path, hd, h, Option.map_none', Option.isSome_none]
  · rw [hd, h]
    rfl

/-- C16 at catalog types with a nil `Enabled` pointer and a `Disabled` pointer to
an empty list. -/
theorem C16_catalog_types_nil_versus_empty_witness :
    (marshalCatalogTypes nilEnabledEmptyDisabled).hasKey ["enabled"] = false
    ∧ (marshalCatalogTypes nilEnabledEmptyDisabled).child "disabled" = some (Yaml.seq [])
    ∧ ∃ t2, unmarshalCatalogTypes (marshalCatalogTypes nilEnabledEmptyDisabled) = some t2
        ∧ t2.Enabled = nilEnabledEmptyDisabled.Enabled
        ∧ t2.Disabled = nilEnabledEmptyDisabled.Disabled :=
  ⟨(C16_catalog_types_nil_versus_empty nilEnabledEmptyDisabled).1 rfl,
    (C16_catalog_types_nil_versus_empty nilEnabledEmptyDisabled).2.2.2.1 rfl,
    (C16_catalog_types_nil_versus_empty nilEnabledEmptyDisabled).2.2.2.2⟩

end consoleserver

/-! ## Apply configuration constructors -/

namespace applyconfigurations

section Constructors

variable {Time OwnerRef Spec Status : Type}

/-- C10: `Etcd(name)` returns a configuration whose Name, as returned by
`GetName`, is `name`, whose Kind is "Etcd" and whose APIVersion is
"operator.openshift.io/v1"; `InsightsDataGather(name)` likewise with Kind
"InsightsDataGather" and APIVersion "config.openshift.io/v1alpha1"; in both,
Spec, Status and every other metadata field are unset. -/
theorem C10_constructors_set_name_kind_apiVersion (name : String) :
    ((Etcd name : EtcdApplyConfiguration Time OwnerRef Spec Status)
        = { TypeMetaApplyConfiguration :=
              { Kind := some "Etcd", APIVersion := some "operator.openshift.io/v1" },
            ObjectMetaApplyConfiguration :=
              some { Name := some name, GenerateName := none, Namespace := none, UID := none,
                     ResourceVersion := none, Generation := none, CreationTimestamp := none,
                     DeletionTimestamp := none, DeletionGracePeriodSeconds := none,
                     Labels := none, Annotations := none, OwnerReferences := [],
                     Finalizers := [] },
            Spec := none, Status := none }
      ∧ (Etcd name : EtcdApplyConfiguration Time OwnerRef Spec Status).GetName
          = (Etcd name, some name))
    ∧ ((InsightsDataGather name : InsightsDataGatherApplyConfiguration Time OwnerRef Spec Status)
        = { TypeMetaApplyConfiguration :=
              { Kind := some "InsightsDataGather",
                APIVersion := some "config.openshift.io/v1alpha1" },
            ObjectMetaApplyConfiguration :=
              some { Name := some name, GenerateName := none, Namespace := none, UID := none,
                     ResourceVersion := none, Generation := none, CreationTimestamp := none,
                     DeletionTimestamp := none, DeletionGracePeriodSeconds := none,
                     Labels := none, Annotations := none, OwnerReferences := [],
                     Finalizers := [] },
            Spec := none, Status := none }
      ∧ (InsightsDataGather name :
          InsightsDataGatherApplyConfiguration Time OwnerRef Spec Status).GetName
          = (InsightsDataGather name, some name)) :=
  ⟨⟨rfl, rfl⟩, ⟨rfl, rfl⟩⟩

end Constructors

/-! ## Setters -/

theorem mapGet_mapSet (m : List (String × String)) (k v k2 : String) :
    mapGet (mapSet m k v) k2 = if k2 = k then some v else mapGet m k2 := by
  induction m with
  | nil =>
    by_cases h : k2 = k
    · simp [mapSet, mapGet, h]
    · have h2 : ¬ k = k2 := fun e => h e.symm
      simp [mapSet, mapGet, h, h2]
  | cons e rest ih =>
    obtain ⟨k3, v3⟩ := e
    by_cases h3 : k3 = k
    · by_cases h : k2 = k
      · simp [mapSet, mapGet, h3, h]
      · have h2 : ¬ k = k2 := fun e => h e.symm
        simp [mapSet, mapGet, h3, h, h2]
    · by_cases h : k3 = k2
      · have h4 : ¬ k2 = k := fun e => h3 (h.trans e)
        simp [mapSet, mapGet, h3, h, h4]
      · simp [mapSet, mapGet, h3, h, ih]

theorem assignEntries_some (m : List (String × String)) (entries : List (String × String))
    (hnd : (entries.map Prod.fst).Nodup) :
    ∃ m2, assignEntries (some m) entries = Except.ok (some m2)
      ∧ (∀ k v, (k, v) ∈ entries → mapGet m2 k = some v)
      ∧ (∀ k, k ∉ entries.map Prod.fst → mapGet m2 k = mapGet m k) := by
  induction entries generalizing m with
  | nil => exact ⟨m, rfl, fun k v h => (by cases h), fun k _ => rfl⟩
  | cons e rest ih =>
    obtain ⟨k, v⟩ := e
    simp only [List.map_cons, List.nodup_cons] at hnd
    obtain ⟨hk, hrest⟩ := hnd
    obtain ⟨m2, h1, h2, h3⟩ := ih (mapSet m k v) hrest
    refine ⟨m2, ?_, ?_, ?_⟩
    · simpa [assignEntries, mapAssign] using h1
    · intro k2 v2 hmem
      rcases List.mem_cons.mp hmem with heq | hin
      · cases heq
        rw [h3 k hk, mapGet_mapSet, if_pos rfl]
      · exact h2 k2 v2 hin
    · intro k2 hk2
      simp only [List.map_cons, List.mem_cons, not_or] at hk2
      rw [h3 k2 hk2.2, mapGet_mapSet, if_neg hk2.1]

theorem assignEntries_spec (m : Option (List (String × String)))
    (entries : List (String × String)) (hnd : (entries.map Prod.fst).Nodup) :
    ∃ m2, assignEntries
        (if m.isNone && decide (entries.length > 0) then some [] else m) entries = Except.ok m2
      ∧ (∀ k v, (k, v) ∈ entries → mapLookup m2 k = some v)
      ∧ (∀ k, k ∉ entries.map Prod.fst → mapLookup m2 k = mapLookup m k) := by
  cases m with
  | some es =>
    obtain ⟨m2, h1, h2, h3⟩ := assignEntries_some es entries hnd
    exact ⟨some m2, by simpa using h1, h2, h3⟩
  | none =>
    cases entries with
    | nil => exact ⟨none, rfl, fun k v h => (by cases h), fun k _ => rfl⟩
    | cons e rest =>
      obtain ⟨m2, h1, h2, h3⟩ := assignEntries_some [] (e :: rest) hnd
      exact ⟨some m2, by simpa using h1, h2, h3⟩

theorem appendFinalizers_eq (old xs : List String) : appendFinalizers old xs = old ++ xs := by
  induction xs generalizing old with
  | nil => simp [appendFinalizers]
  | cons x xs ih => simp [appendFinalizers, ih]

theorem appendOwnerReferences_some {OwnerRef : Type} (old xs : List OwnerRef) :
    appendOwnerReferences old (xs.map some) = Except.ok (old ++ xs) := by
  induction xs generalizing old with
  | nil => simp [appendOwnerReferences]
  | cons x xs ih => simp [appendOwnerReferences, ih]

theorem appendOwnerReferences_some_append {OwnerRef : Type} (old xs ys : List OwnerRef) :
    appendOwnerReferences old (xs.map some ++ ys.map some) = Except.ok (old ++ (xs ++ ys)) := by
  rw [← List.map_append]
  exact appendOwnerReferences_some old (xs ++ ys)

section Setters

variable {Time OwnerRef Spec Status : Type}

/-- C11: last call wins. For every Etcd and InsightsDataGather configuration
and every pair of values, calling a scalar setter (`WithKind`, `WithAPIVersion`,
`WithName`, `WithGenerateName`, `WithNamespace`, `WithUID`,
`WithResourceVersion`, `WithGeneration`, `WithCreationTimestamp`,
`WithDeletionTimestamp`, `WithDeletionGracePeriodSeconds`, `WithSpec`,
`WithStatus`) with the first value and then with the second leaves the same
configuration as calling it once with the second, and the field then holds the
second value. -/
theorem C11_scalar_setters_last_call_wins
    (b : EtcdApplyConfiguration Time OwnerRef Spec Status)
    (g : InsightsDataGatherApplyConfiguration Time OwnerRef Spec Status)
    (s1 s2 : String) (n1 n2 : Int) (t1 t2 : Time) (sp1 sp2 : Option Spec)
    (st1 st2 : Option Status) (u1 u2 : Status) :
    (((b.WithKind s1).WithKind s2 = b.WithKind s2
        ∧ (b.WithKind s2).TypeMetaApplyConfiguration.Kind = some s2)
      ∧ ((b.WithAPIVersion s1).WithAPIVersion s2 = b.WithAPIVersion s2
        ∧ (b.WithAPIVersion s2).TypeMetaApplyConfiguration.APIVersion = some s2)
      ∧ (((b.WithName s1).WithName s2 = b.WithName s2)
        ∧ (b.WithName s2).ObjectMetaApplyConfiguration.bind (fun m => m.Name) = some s2)
      ∧ (((b.WithGenerateName s1).WithGenerateName s2 = b.WithGenerateName s2)
        ∧ (b.WithGenerateName s2).ObjectMetaApplyConfiguration.bind (fun m => m.GenerateName) = some s2)
      ∧ (((b.WithNamespace s1).WithNamespace s2 = b.WithNamespace s2)
        ∧ (b.WithNamespace s2).ObjectMetaApplyConfiguration.bind (fun m => m.Namespace) = some s2)
      ∧ (((b.WithUID s1).WithUID s2 = b.WithUID s2)
        ∧ (b.WithUID s2).ObjectMetaApplyConfiguration.bind (fun m => m.UID) = some s2)
      ∧ (((b.WithResourceVersion s1).WithResourceVersion s2 = b.WithResourceVersion s2)
        ∧ (b.WithResourceVersion s2).ObjectMetaApplyConfiguration.bind (fun m => m.ResourceVersion) = some s2)
      ∧ (((b.WithGeneration n1).WithGeneration n2 = b.WithGeneration n2)
        ∧ (b.WithGeneration n2).ObjectMetaApplyConfiguration.bind (fun m => m.Generation) = some n2)
      ∧ (((b.WithCreationTimestamp t1).WithCreationTimestamp t2 = b.WithCreationTimestamp t2)
        ∧ (b.WithCreationTimestamp t2).ObjectMetaApplyConfiguration.bind (fun m => m.CreationTimestamp) = some t2)
      ∧ (((b.WithDeletionTimestamp t1).WithDeletionTimestamp t2 = b.WithDeletionTimestamp t2)
        ∧ (b.WithDeletionTimestamp t2).ObjectMetaApplyConfiguration.bind (fun m => m.DeletionTimestamp) = some t2)
      ∧ (((b.WithDeletionGracePeriodSeconds n1).WithDeletionGracePeriodSeconds n2 = b.WithDeletionGracePeriodSeconds n2)
        ∧ (b.WithDeletionGracePeriodSeconds n2).ObjectMetaApplyConfiguration.bind (fun m => m.DeletionGracePeriodSeconds) = some n2)
      ∧ ((b.WithSpec sp1).WithSpec sp2 = b.WithSpec sp2 ∧ (b.WithSpec sp2).Spec = sp2)
      ∧ ((b.WithStatus st1).WithStatus st2 = b.WithStatus st2
        ∧ (b.WithStatus st2).Status = st2))
    ∧ (((g.WithKind s1).WithKind s2 = g.WithKind s2
        ∧ (g.WithKind s2).TypeMetaApplyConfiguration.Kind = some s2)
      ∧ ((g.WithAPIVersion s1).WithAPIVersion s2 = g.WithAPIVersion s2
        ∧ (g.WithAPIVersion s2).TypeMetaApplyConfiguration.APIVersion = some s2)
      ∧ (((g.WithName s1).WithName s2 = g.WithName s2)
        ∧ (g.WithName s2).ObjectMetaApplyConfiguration.bind (fun m => m.Name) = some s2)
      ∧ (((g.WithGenerateName s1).WithGenerateName s2 = g.WithGenerateName s2)
        ∧ (g.WithGenerateName s2).ObjectMetaApplyConfiguration.bind (fun m => m.GenerateName) = some s2)
      ∧ (((g.WithNamespace s1).WithNamespace s2 = g.WithNamespace s2)
        ∧ (g.WithNamespace s2).ObjectMetaApplyConfiguration.bind (fun m => m.Namespace) = some s2)
      ∧ (((g.WithUID s1).WithUID s2 = g.WithUID s2)
        ∧ (g.WithUID s2).ObjectMetaApplyConfiguration.bind (fun m => m.UID) = some s2)
      ∧ (((g.WithResourceVersion s1).WithResourceVersion s2 = g.WithResourceVersion s2)
        ∧ (g.WithResourceVersion s2).ObjectMetaApplyConfiguration.bind (fun m => m.ResourceVersion) = some s2)
      ∧ (((g.WithGeneration n1).WithGeneration n2 = g.WithGeneration n2)
        ∧ (g.WithGeneration n2).ObjectMetaApplyConfiguration.bind (fun m => m.Generation) = some n2)
      ∧ (((g.WithCreationTimestamp t1).WithCreationTimestamp t2 = g.WithCreationTimestamp t2)
        ∧ (g.WithCreationTimestamp t2).ObjectMetaApplyConfiguration.bind (fun m => m.CreationTimestamp) = some t2)
      ∧ (((g.WithDeletionTimestamp t1).WithDeletionTimestamp t2 = g.WithDeletionTimestamp t2)
        ∧ (g.WithDeletionTimestamp t2).ObjectMetaApplyConfiguration.bind (fun m => m.DeletionTimestamp) = some t2)
      ∧ (((g.WithDeletionGracePeriodSeconds n1).WithDeletionGracePeriodSeconds n2 = g.WithDeletionGracePeriodSeconds n2)
        ∧ (g.WithDeletionGracePeriodSeconds n2).ObjectMetaApplyConfiguration.bind (fun m => m.DeletionGracePeriodSeconds) = some n2)
      ∧ ((g.WithSpec sp1).WithSpec sp2 = g.WithSpec sp2 ∧ (g.WithSpec sp2).Spec = sp2)
      ∧ ((g.WithStatus u1).WithStatus u2 = g.WithStatus u2
        ∧ (g.WithStatus u2).Status = some u2)) := by
  obtain ⟨tm, om, sp, st⟩ := b
  obtain ⟨tm2, om2, sp3, st3⟩ := g
  cases om <;> cases om2 <;>
    exact ⟨⟨⟨rfl, rfl⟩, ⟨rfl, rfl⟩, ⟨rfl, rfl⟩, ⟨rfl, rfl⟩, ⟨rfl, rfl⟩, ⟨rfl, rfl⟩, ⟨rfl, rfl⟩, ⟨rfl, rfl⟩, ⟨rfl, rfl⟩, ⟨rfl, rfl⟩, ⟨rfl, rfl⟩, ⟨rfl, rfl⟩, ⟨rfl, rfl⟩⟩, ⟨⟨rfl, rfl⟩, ⟨rfl, rfl⟩, ⟨rfl, rfl⟩, ⟨rfl, rfl⟩, ⟨rfl, rfl⟩, ⟨rfl, rfl⟩, ⟨rfl, rfl⟩, ⟨rfl, rfl⟩, ⟨rfl, rfl⟩, ⟨rfl, rfl⟩, ⟨rfl, rfl⟩, ⟨rfl, rfl⟩, ⟨rfl, rfl⟩⟩⟩

theorem etcd_objectMeta_ensure (b : EtcdApplyConfiguration Time OwnerRef Spec Status) :
    b.ensureObjectMetaApplyConfigurationExists.objectMeta = b.objectMeta := by
  obtain ⟨tm, om, sp, st⟩ := b
  cases om <;> rfl

theorem etcd_withLabels_ok (b : EtcdApplyConfiguration Time OwnerRef Spec Status)
    (entries : List (String × String)) (m2 : Option (List (String × String)))
    (h : assignEntries
        (if b.objectMeta.Labels.isNone && decide (entries.length > 0) then some []
          else b.objectMeta.Labels) entries = Except.ok m2) :
    ∃ b2, b.WithLabels entries = Except.ok b2 ∧ b2.objectMeta.Labels = m2 := by
  refine ⟨{ b.ensureObjectMetaApplyConfigurationExists with
      ObjectMetaApplyConfiguration := some { b.objectMeta with Labels := m2 } }, ?_, rfl⟩
  unfold EtcdApplyConfiguration.WithLabels
  simp only [etcd_objectMeta_ensure, h]

theorem etcd_withAnnotations_ok (b : EtcdApplyConfiguration Time OwnerRef Spec Status)
    (entries : List (String × String)) (m2 : Option (List (String × String)))
    (h : assignEntries
        (if b.objectMeta.Annotations.isNone && decide (entries.length > 0) then some []
          else b.objectMeta.Annotations) entries = Except.ok m2) :
    ∃ b2, b.WithAnnotations entries = Except.ok b2 ∧ b2.objectMeta.Annotations = m2 := by
  refine ⟨{ b.ensureObjectMetaApplyConfigurationExists with
      ObjectMetaApplyConfiguration := some { b.objectMeta with Annotations := m2 } }, ?_, rfl⟩
  unfold EtcdApplyConfiguration.WithAnnotations
  simp only [etcd_objectMeta_ensure, h]

theorem insights_objectMeta_ensure (b : InsightsDataGatherApplyConfiguration Time OwnerRef Spec Status) :
    b.ensureObjectMetaApplyConfigurationExists.objectMeta = b.objectMeta := by
  obtain ⟨tm, om, sp, st⟩ := b
  cases om <;> rfl

theorem insights_withLabels_ok (b : InsightsDataGatherApplyConfiguration Time OwnerRef Spec Status)
    (entries : List (String × String)) (m2 : Option (List (String × String)))
    (h : assignEntries
        (if b.objectMeta.Labels.isNone && decide (entries.length > 0) then some []
          else b.objectMeta.Labels) entries = Except.ok m2) :
    ∃ b2, b.WithLabels entries = Except.ok b2 ∧ b2.objectMeta.Labels = m2 := by
  refine ⟨{ b.ensureObjectMetaApplyConfigurationExists with
      ObjectMetaApplyConfiguration := some { b.objectMeta with Labels := m2 } }, ?_, rfl⟩
  unfold InsightsDataGatherApplyConfiguration.WithLabels
  simp only [insights_objectMeta_ensure, h]

theorem insights_withAnnotations_ok (b : InsightsDataGatherApplyConfiguration Time OwnerRef Spec Status)
    (entries : List (String × String)) (m2 : Option (List (String × String)))
    (h : assignEntries
        (if b.objectMeta.Annotations.isNone && decide (entries.length > 0) then some []
          else b.objectMeta.Annotations) entries = Except.ok m2) :
    ∃ b2, b.WithAnnotations entries = Except.ok b2 ∧ b2.objectMeta.Annotations = m2 := by
  refine ⟨{ b.ensureObjectMetaApplyConfigurationExists with
      ObjectMetaApplyConfiguration := some { b.objectMeta with Annotations := m2 } }, ?_, rfl⟩
  unfold InsightsDataGatherApplyConfiguration.WithAnnotations
  simp only [insights_objectMeta_ensure, h]

/-- C12: for every configuration and every map `entries` (its entries in the
order the loop visits them, keys distinct), `WithLabels(entries)` returns, the
`Labels` field then maps each key of `entries` to its value in `entries`, maps
every other key to what it mapped to before, and no key is removed; the same
for `WithAnnotations` and `Annotations`, on both configuration types. -/
theorem C12_with_labels_puts_entries
    (b : EtcdApplyConfiguration Time OwnerRef Spec Status)
    (g : InsightsDataGatherApplyConfiguration Time OwnerRef Spec Status)
    (entries : List (String × String)) (hnd : (entries.map Prod.fst).Nodup) :
    (∃ b2, b.WithLabels entries = Except.ok b2
      ∧ (∀ k v, (k, v) ∈ entries → mapLookup b2.objectMeta.Labels k = some v)
      ∧ (∀ k, k ∉ entries.map Prod.fst →
          mapLookup b2.objectMeta.Labels k = mapLookup b.objectMeta.Labels k)
      ∧ (∀ k, (mapLookup b.objectMeta.Labels k).isSome = true →
          (mapLookup b2.objectMeta.Labels k).isSome = true))
    ∧ (∃ b2, b.WithAnnotations entries = Except.ok b2
      ∧ (∀ k v, (k, v) ∈ entries → mapLookup b2.objectMeta.Annotations k = some v)
      ∧ (∀ k, k ∉ entries.map Prod.fst →
          mapLookup b2.objectMeta.Annotations k = mapLookup b.objectMeta.Annotations k)
      ∧ (∀ k, (mapLookup b.objectMeta.Annotations k).isSome = true →
          (mapLookup b2.objectMeta.Annotations k).isSome = true))
    ∧ (∃ g2, g.WithLabels entries = Except.ok g2
      ∧ (∀ k v, (k, v) ∈ entries → mapLookup g2.objectMeta.Labels k = some v)
      ∧ (∀ k, k ∉ entries.map Prod.fst →
          mapLookup g2.objectMeta.Labels k = mapLookup g.objectMeta.Labels k)
      ∧ (∀ k, (mapLookup g.objectMeta.Labels k).isSome = true →
          (mapLookup g2.objectMeta.Labels k).isSome = true))
    ∧ (∃ g2, g.WithAnnotations entries = Except.ok g2
      ∧ (∀ k v, (k, v) ∈ entries → mapLookup g2.objectMeta.Annotations k = some v)
      ∧ (∀ k, k ∉ entries.map Prod.fst →
          mapLookup g2.objectMeta.Annotations k = mapLookup g.objectMeta.Annotations k)
      ∧ (∀ k, (mapLookup g.objectMeta.Annotations k).isSome = true →
          (mapLookup g2.objectMeta.Annotations k).isSome = true)) := by
  have kept : ∀ (m m2 : Option (List (String × String))),
      (∀ k v, (k, v) ∈ entries → mapLookup m2 k = some v) →
      (∀ k, k ∉ entries.map Prod.fst → mapLookup m2 k = mapLookup m k) →
      ∀ k, (mapLookup m k).isSome = true → (mapLookup m2 k).isSome = true := by
    intro m m2 h2 h3 k hk
    by_cases hin : k ∈ entries.map Prod.fst
    · obtain ⟨⟨k2, v2⟩, hmem, rfl⟩ := List.mem_map.mp hin
      rw [h2 k2 v2 hmem]
      rfl
    · rw [h3 k hin]
      exact hk
  refine ⟨?_, ?_, ?_, ?_⟩
  · obtain ⟨m2, h1, h2, h3⟩ := assignEntries_spec b.objectMeta.Labels entries hnd
    obtain ⟨b2, hb, hm⟩ := etcd_withLabels_ok b entries m2 h1
    exact ⟨b2, hb, hm ▸ h2, hm ▸ h3, hm ▸ kept _ _ h2 h3⟩
  · obtain ⟨m2, h1, h2, h3⟩ := assignEntries_spec b.objectMeta.Annotations entries hnd
    obtain ⟨b2, hb, hm⟩ := etcd_withAnnotations_ok b entries m2 h1
    exact ⟨b2, hb, hm ▸ h2, hm ▸ h3, hm ▸ kept _ _ h2 h3⟩
  · obtain ⟨m2, h1, h2, h3⟩ := assignEntries_spec g.objectMeta.Labels entries hnd
    obtain ⟨g2, hb, hm⟩ := insights_withLabels_ok g entries m2 h1
    exact ⟨g2, hb, hm ▸ h2, hm ▸ h3, hm ▸ kept _ _ h2 h3⟩
  · obtain ⟨m2, h1, h2, h3⟩ := assignEntries_spec g.objectMeta.Annotations entries hnd
    obtain ⟨g2, hb, hm⟩ := insights_withAnnotations_ok g entries m2 h1
    exact ⟨g2, hb, hm ▸ h2, hm ▸ h3, hm ▸ kept _ _ h2 h3⟩

/-- C12 at an Etcd configuration with labels `app` and `zone` and entries for
`app` and `tier`. -/
theorem C12_with_labels_puts_entries_witness :
    ∃ b2, labelledEtcd.WithLabels newLabels = Except.ok b2
      ∧ (∀ k v, (k, v) ∈ newLabels → mapLookup b2.objectMeta.Labels k = some v)
      ∧ (∀ k, k ∉ newLabels.map Prod.fst →
          mapLookup b2.objectMeta.Labels k = mapLookup labelledEtcd.objectMeta.Labels k)
      ∧ (∀ k, (mapLookup labelledEtcd.objectMeta.Labels k).isSome = true →
          (mapLookup b2.objectMeta.Labels k).isSome = true) :=
  (C12_with_labels_puts_entries labelledEtcd bareGather newLabels (by decide)).1

/-- C13: `WithFinalizers(xs...)` leaves `Finalizers = old ++ xs`, and calling it
with `xs` and then `ys` equals one call with `xs ++ ys`; `WithOwnerReferences`
with non-nil pointers returns, appends the pointed-to values to
`OwnerReferences`, and composes the same way; on both configuration types. -/
theorem C13_finalizers_and_owner_references_append
    (b : EtcdApplyConfiguration Time OwnerRef Spec Status)
    (g : InsightsDataGatherApplyConfiguration Time OwnerRef Spec Status)
    (xs ys : List String) (rs ss : List OwnerRef) :
    ((b.WithFinalizers xs).objectMeta.Finalizers = b.objectMeta.Finalizers ++ xs
      ∧ (b.WithFinalizers xs).WithFinalizers ys = b.WithFinalizers (xs ++ ys)
      ∧ ∃ b1 b2, b.WithOwnerReferences (rs.map some) = Except.ok b1
          ∧ b1.objectMeta.OwnerReferences = b.objectMeta.OwnerReferences ++ rs
          ∧ b1.WithOwnerReferences (ss.map some) = Except.ok b2
          ∧ b.WithOwnerReferences ((rs ++ ss).map some) = Except.ok b2)
    ∧ ((g.WithFinalizers xs).objectMeta.Finalizers = g.objectMeta.Finalizers ++ xs
      ∧ (g.WithFinalizers xs).WithFinalizers ys = g.WithFinalizers (xs ++ ys)
      ∧ ∃ g1 g2, g.WithOwnerReferences (rs.map some) = Except.ok g1
          ∧ g1.objectMeta.OwnerReferences = g.objectMeta.OwnerReferences ++ rs
          ∧ g1.WithOwnerReferences (ss.map some) = Except.ok g2
          ∧ g.WithOwnerReferences ((rs ++ ss).map some) = Except.ok g2) := by
  obtain ⟨tm, om, sp, st⟩ := b
  obtain ⟨tm2, om2, sp2, st2⟩ := g
  constructor
  · cases om <;>
      simp [EtcdApplyConfiguration.WithFinalizers, EtcdApplyConfiguration.WithOwnerReferences,
        EtcdApplyConfiguration.ensureObjectMetaApplyConfigurationExists,
        EtcdApplyConfiguration.objectMeta, appendFinalizers_eq, appendOwnerReferences_some,
        appendOwnerReferences_some_append]
  · cases om2 <;>
      simp [InsightsDataGatherApplyConfiguration.WithFinalizers,
        InsightsDataGatherApplyConfiguration.WithOwnerReferences,
        InsightsDataGatherApplyConfiguration.ensureObjectMetaApplyConfigurationExists,
        InsightsDataGatherApplyConfiguration.objectMeta, appendFinalizers_eq,
        appendOwnerReferences_some, appendOwnerReferences_some_append]

end Setters

/-! ## Extraction -/

section Extract

variable {Time OwnerRef Spec Status Obj Err : Type}

/-- C14: for `ExtractEtcd`, `ExtractEtcdStatus`, `ExtractInsightsDataGather` and
`ExtractInsightsDataGatherStatus`: when the managed-field extraction succeeds
and leaves the fresh configuration untouched (no managed fields), the result
has only Name, Kind and APIVersion populated, Name being the name of the
object; in every successful extraction Name, Kind and APIVersion hold these
values whatever the extraction wrote, and Spec and Status are what the
extraction wrote. -/
theorem C14_extract_populates_name_kind_apiVersion
    (ExtractEtcdInto : Obj → String → String → EtcdApplyConfiguration Time OwnerRef Spec Status →
      String → Except Err (EtcdApplyConfiguration Time OwnerRef Spec Status))
    (ExtractGatherInto : Obj → String → String →
      InsightsDataGatherApplyConfiguration Time OwnerRef Spec Status →
      String → Except Err (InsightsDataGatherApplyConfiguration Time OwnerRef Spec Status))
    (nameOf : Obj → String) (obj : Obj) (fieldManager : String) :
    (((ExtractEtcdInto obj "com.github.openshift.api.operator.v1.Etcd" fieldManager {} ""
          = Except.ok {}) →
        ExtractEtcd ExtractEtcdInto nameOf obj fieldManager
          = Except.ok
              { TypeMetaApplyConfiguration :=
                  { Kind := some "Etcd", APIVersion := some "operator.openshift.io/v1" },
                ObjectMetaApplyConfiguration :=
                  some { Name := some (nameOf obj), GenerateName := none, Namespace := none,
                         UID := none, ResourceVersion := none, Generation := none,
                         CreationTimestamp := none, DeletionTimestamp := none,
                         DeletionGracePeriodSeconds := none, Labels := none,
                         Annotations := none, OwnerReferences := [], Finalizers := [] },
                Spec := none, Status := none })
      ∧ (∀ b, ExtractEtcdInto obj "com.github.openshift.api.operator.v1.Etcd" fieldManager {} ""
            = Except.ok b →
          ∃ r, ExtractEtcd ExtractEtcdInto nameOf obj fieldManager = Except.ok r
            ∧ r.ObjectMetaApplyConfiguration.bind (fun m => m.Name) = some (nameOf obj)
            ∧ r.TypeMetaApplyConfiguration.Kind = some "Etcd"
            ∧ r.TypeMetaApplyConfiguration.APIVersion = some "operator.openshift.io/v1"
            ∧ r.Spec = b.Spec ∧ r.Status = b.Status))
    ∧ (((ExtractEtcdInto obj "com.github.openshift.api.operator.v1.Etcd" fieldManager {} "status"
          = Except.ok {}) →
        ExtractEtcdStatus ExtractEtcdInto nameOf obj fieldManager
          = Except.ok
              { TypeMetaApplyConfiguration :=
                  { Kind := some "Etcd", APIVersion := some "operator.openshift.io/v1" },
                ObjectMetaApplyConfiguration :=
                  some { Name := some (nameOf obj), GenerateName := none, Namespace := none,
                         UID := none, ResourceVersion := none, Generation := none,
                         CreationTimestamp := none, DeletionTimestamp := none,
                         DeletionGracePeriodSeconds := none, Labels := none,
                         Annotations := none, OwnerReferences := [], Finalizers := [] },
                Spec := none, Status := none })
      ∧ (∀ b, ExtractEtcdInto obj "com.github.openshift.api.operator.v1.Etcd" fieldManager {} "status"
            = Except.ok b →
          ∃ r, ExtractEtcdStatus ExtractEtcdInto nameOf obj fieldManager = Except.ok r
            ∧ r.ObjectMetaApplyConfiguration.bind (fun m => m.Name) = some (nameOf obj)
            ∧ r.TypeMetaApplyConfiguration.Kind = some "Etcd"
            ∧ r.TypeMetaApplyConfiguration.APIVersion = some "operator.openshift.io/v1"
            ∧ r.Spec = b.Spec ∧ r.Status = b.Status))
    ∧ (((ExtractGatherInto obj "com.github.openshift.api.config.v1alpha1.InsightsDataGather" fieldManager {} ""
          = Except.ok {}) →
        ExtractInsightsDataGather ExtractGatherInto nameOf obj fieldManager
          = Except.ok
              { TypeMetaApplyConfiguration :=
                  { Kind := some "InsightsDataGather", APIVersion := some "config.openshift.io/v1alpha1" },
                ObjectMetaApplyConfiguration :=
                  some { Name := some (nameOf obj), GenerateName := none, Namespace := none,
                         UID := none, ResourceVersion := none, Generation := none,
                         CreationTimestamp := none, DeletionTimestamp := none,
                         DeletionGracePeriodSeconds := none, Labels := none,
                         Annotations := none, OwnerReferences := [], Finalizers := [] },
                Spec := none, Status := none })
      ∧ (∀ b, ExtractGatherInto obj "com.github.openshift.api.config.v1alpha1.InsightsDataGather" fieldManager {} ""
            = Except.ok b →
          ∃ r, ExtractInsightsDataGather ExtractGatherInto nameOf obj fieldManager = Except.ok r
            ∧ r.ObjectMetaApplyConfiguration.bind (fun m => m.Name) = some (nameOf obj)
            ∧ r.TypeMetaApplyConfiguration.Kind = some "InsightsDataGather"
            ∧ r.TypeMetaApplyConfiguration.APIVersion = some "config.openshift.io/v1alpha1"
            ∧ r.Spec = b.Spec ∧ r.Status = b.Status))
    ∧ (((ExtractGatherInto obj "com.github.openshift.api.config.v1alpha1.InsightsDataGather" fieldManager {} "status"
          = Except.ok {}) →
        ExtractInsightsDataGatherStatus ExtractGatherInto nameOf obj fieldManager
          = Except.ok
              { TypeMetaApplyConfiguration :=
                  { Kind := some "InsightsDataGather", APIVersion := some "config.openshift.io/v1alpha1" },
                ObjectMetaApplyConfiguration :=
                  some { Name := some (nameOf obj), GenerateName := none, Namespace := none,
                         UID := none, ResourceVersion := none, Generation := none,
                         CreationTimestamp := none, DeletionTimestamp := none,
                         DeletionGracePeriodSeconds := none, Labels := none,
                         Annotations := none, OwnerReferences := [], Finalizers := [] },
                Spec := none, Status := none })
      ∧ (∀ b, ExtractGatherInto obj "com.github.openshift.api.config.v1alpha1.InsightsDataGather" fieldManager {} "status"
            = Except.ok b →
          ∃ r, ExtractInsightsDataGatherStatus ExtractGatherInto nameOf obj fieldManager = Except.ok r
            ∧ r.ObjectMetaApplyConfiguration.bind (fun m => m.Name) = some (nameOf obj)
            ∧ r.TypeMetaApplyConfiguration.Kind = some "InsightsDataGather"
            ∧ r.TypeMetaApplyConfiguration.APIVersion = some "config.openshift.io/v1alpha1"
            ∧ r.Spec = b.Spec ∧ r.Status = b.Status)) := by
  refine ⟨?_, ?_, ?_, ?_⟩
  · refine ⟨fun h => ?_, fun b h => ?_⟩
    · simp only [ExtractEtcd, extractEtcd, h]
      rfl
    · refine ⟨((b.WithName (nameOf obj)).WithKind "Etcd").WithAPIVersion "operator.openshift.io/v1", ?_, ?_⟩
      · simp only [ExtractEtcd, extractEtcd, h]
      · obtain ⟨tm, om, sp, st⟩ := b
        cases om <;> exact ⟨rfl, rfl, rfl, rfl, rfl⟩
  · refine ⟨fun h => ?_, fun b h => ?_⟩
    · simp only [ExtractEtcdStatus, extractEtcd, h]
      rfl
    · refine ⟨((b.WithName (nameOf obj)).WithKind "Etcd").WithAPIVersion "operator.openshift.io/v1", ?_, ?_⟩
      · simp only [ExtractEtcdStatus, extractEtcd, h]
      · obtain ⟨tm, om, sp, st⟩ := b
        cases om <;> exact ⟨rfl, rfl, rfl, rfl, rfl⟩
  · refine ⟨fun h => ?_, fun b h => ?_⟩
    · simp only [ExtractInsightsDataGather, extractInsightsDataGather, h]
      rfl
    · refine ⟨((b.WithName (nameOf obj)).WithKind "InsightsDataGather").WithAPIVersion "config.openshift.io/v1alpha1", ?_, ?_⟩
      · simp only [ExtractInsightsDataGather, extractInsightsDataGather, h]
      · obtain ⟨tm, om, sp, st⟩ := b
        cases om <;> exact ⟨rfl, rfl, rfl, rfl, rfl⟩
  · refine ⟨fun h => ?_, fun b h => ?_⟩
    · simp only [ExtractInsightsDataGatherStatus, extractInsightsDataGather, h]
      rfl
    · refine ⟨((b.WithName (nameOf obj)).WithKind "InsightsDataGather").WithAPIVersion "config.openshift.io/v1alpha1", ?_, ?_⟩
      · simp only [ExtractInsightsDataGatherStatus, extractInsightsDataGather, h]
      · obtain ⟨tm, om, sp, st⟩ := b
        cases om <;> exact ⟨rfl, rfl, rfl, rfl, rfl⟩

/-- C14 at an extraction that finds no managed fields for the object named
"cluster". -/
theorem C14_extract_populates_witness :
    (ExtractEtcd extractNothing id "cluster" "manager" :
        Except String (EtcdApplyConfiguration String String String String))
      = Except.ok
          { TypeMetaApplyConfiguration :=
              { Kind := some "Etcd", APIVersion := some "operator.openshift.io/v1" },
            ObjectMetaApplyConfiguration :=
              some { Name := some "cluster", GenerateName := none, Namespace := none,
                     UID := none, ResourceVersion := none, Generation := none,
                     CreationTimestamp := none, DeletionTimestamp := none,
                     DeletionGracePeriodSeconds := none, Labels := none,
                     Annotations := none, OwnerReferences := [], Finalizers := [] },
            Spec := none, Status := none } :=
  (C14_extract_populates_name_kind_apiVersion extractNothing extractNothing id
    "cluster" "manager").1.1 rfl

/-- C15: `extractEtcd` and `extractInsightsDataGather` return an error iff the
managed-field extraction returns one, and then exactly that error (no
configuration); they succeed iff the extraction succeeds; the exported
functions pass subresource "" and "status". -/
theorem C15_extract_error_iff
    (ExtractEtcdInto : Obj → String → String → EtcdApplyConfiguration Time OwnerRef Spec Status →
      String → Except Err (EtcdApplyConfiguration Time OwnerRef Spec Status))
    (ExtractGatherInto : Obj → String → String →
      InsightsDataGatherApplyConfiguration Time OwnerRef Spec Status →
      String → Except Err (InsightsDataGatherApplyConfiguration Time OwnerRef Spec Status))
    (nameOf : Obj → String) (obj : Obj) (fieldManager : String) (subresource : String) :
    ((∀ err, extractEtcd ExtractEtcdInto nameOf obj fieldManager subresource = Except.error err
          ↔ ExtractEtcdInto obj "com.github.openshift.api.operator.v1.Etcd" fieldManager {}
              subresource = Except.error err)
      ∧ ((∃ r, extractEtcd ExtractEtcdInto nameOf obj fieldManager subresource = Except.ok r)
          ↔ ∃ b, ExtractEtcdInto obj "com.github.openshift.api.operator.v1.Etcd" fieldManager {}
              subresource = Except.ok b)
      ∧ ExtractEtcd ExtractEtcdInto nameOf obj fieldManager
          = extractEtcd ExtractEtcdInto nameOf obj fieldManager ""
      ∧ ExtractEtcdStatus ExtractEtcdInto nameOf obj fieldManager
          = extractEtcd ExtractEtcdInto nameOf obj fieldManager "status")
    ∧ ((∀ err, extractInsightsDataGather ExtractGatherInto nameOf obj fieldManager subresource
            = Except.error err
          ↔ ExtractGatherInto obj "com.github.openshift.api.config.v1alpha1.InsightsDataGather"
              fieldManager {} subresource = Except.error err)
      ∧ ((∃ r, extractInsightsDataGather ExtractGatherInto nameOf obj fieldManager subresource
            = Except.ok r)
          ↔ ∃ b, ExtractGatherInto obj
              "com.github.openshift.api.config.v1alpha1.InsightsDataGather"
              fieldManager {} subresource = Except.ok b)
      ∧ ExtractInsightsDataGather ExtractGatherInto nameOf obj fieldManager
          = extractInsightsDataGather ExtractGatherInto nameOf obj fieldManager ""
      ∧ ExtractInsightsDataGatherStatus ExtractGatherInto nameOf obj fieldManager
          = extractInsightsDataGather ExtractGatherInto nameOf obj fieldManager "status") := by
  refine ⟨⟨fun err => ?_, ?_, rfl, rfl⟩, ⟨fun err => ?_, ?_, rfl, rfl⟩⟩
  · unfold extractEtcd
    cases h : ExtractEtcdInto obj "com.github.openshift.api.operator.v1.Etcd" fieldManager {}
      subresource with
    | error e => simp only [h]
    | ok b => simp only [h, reduceCtorEq]
  · unfold extractEtcd
    cases h : ExtractEtcdInto obj "com.github.openshift.api.operator.v1.Etcd" fieldManager {}
      subresource with
    | error e => simp only [h, reduceCtorEq, exists_false]
    | ok b => simp only [h, Except.ok.injEq, exists_eq']
  · unfold extractInsightsDataGather
    cases h : ExtractGatherInto obj "com.github.openshift.api.config.v1alpha1.InsightsDataGather"
      fieldManager {} subresource with
    | error e => simp only [h]
    | ok b => simp only [h, reduceCtorEq]
  · unfold extractInsightsDataGather
    cases h : ExtractGatherInto obj "com.github.openshift.api.config.v1alpha1.InsightsDataGather"
      fieldManager {} subresource with
    | error e => simp only [h, reduceCtorEq, exists_false]
    | ok b => simp only [h, Except.ok.injEq, exists_eq']

end Extract

end applyconfigurations
